import Mathlib

/-!
# Mini 2D platformer: movement + jump (`script.js`)

A shallow embedding of the physics core of `script.js`: the geometry helpers
`clamp` and `rectsOverlap`, the two collision passes, the key handlers,
`tryJump` and the per-frame `update`.

Numbers: the JavaScript numbers of the source are read as exact rationals
(`ℚ`), so `0.6` is `3/5`, `4.2` is `21/5`; the two frame counters are integers
(`ℤ`).  The global objects `world`, `input` and `player` become records passed
explicitly, and the global `platforms` array becomes a `List Platform`
argument.  Fields used only for drawing (colours) are left out.

Rounding: where a property re-tests an overlap after a snap it depends on how
the sums and differences of lines 56, 63, 65, 78 and 83 round.  For those
properties the two collision passes are given a second time
(`resolveHorizontalCollisionsR`, `resolveVerticalCollisionsR`), with every
arithmetic result passed through a rounding function `fl`: `fl = id` is the exact
reading above, `fl = roundDouble` is round-to-nearest-even to 53 significant bits,
the arithmetic of JavaScript numbers.
-/

namespace Platformer

/-- The `world` object (lines 7-13); `width` and `height` come from the canvas. -/
structure World where
  width : ℚ
  height : ℚ
  gravity : ℚ
deriving DecidableEq

/-- The `input` object (lines 15-19). -/
structure Input where
  left : Bool
  right : Bool
  jump : Bool
deriving DecidableEq

/-- The `player` object (lines 21-37). -/
structure Player where
  x : ℚ
  y : ℚ
  width : ℚ
  height : ℚ
  vx : ℚ
  vy : ℚ
  speed : ℚ
  maxSpeedX : ℚ
  jumpStrength : ℚ
  onGround : Bool
  coyoteTimeFrames : ℤ
  coyoteCounter : ℤ
  jumpBufferFrames : ℤ
  jumpBufferCounter : ℤ
deriving DecidableEq

/-- One element of the `platforms` array (lines 40-49). -/
structure Platform where
  x : ℚ
  y : ℚ
  width : ℚ
  height : ℚ
deriving DecidableEq

/-- The initial value of `input` (lines 15-19). -/
def input0 : Input :=
  { left := false, right := false, jump := false }

/-- The initial value of `player` (lines 21-37). -/
def player0 : Player :=
  { x := 80, y := 0, width := 32, height := 48, vx := 0, vy := 0,
    speed := 65 / 100, maxSpeedX := 42 / 10, jumpStrength := 12,
    onGround := false, coyoteTimeFrames := 6, coyoteCounter := 0,
    jumpBufferFrames := 6, jumpBufferCounter := 0 }

/-- The `world` object for a canvas of the given size (lines 7-13). -/
def worldOf (canvasWidth canvasHeight : ℚ) : World :=
  { width := canvasWidth, height := canvasHeight, gravity := 6 / 10 }

/-- The level geometry of lines 40-49. -/
def levelPlatforms (world : World) : List Platform :=
  [ { x := 0, y := world.height - 48, width := world.width, height := 48 },
    { x := 140, y := world.height - 140, width := 120, height := 20 },
    { x := 320, y := world.height - 220, width := 120, height := 20 },
    { x := 520, y := world.height - 180, width := 100, height := 20 },
    { x := 700, y := world.height - 260, width := 140, height := 20 } ]

/-- Lines 51-53: `Math.max(min, Math.min(max, value))`. -/
def clamp (value lo hi : ℚ) : ℚ :=
  max lo (min hi value)

/-- Lines 55-57. -/
def rectsOverlap (ax ay aw ah bx «by» bw bh : ℚ) : Bool :=
  decide (ax < bx + bw) && decide (ax + aw > bx) &&
    decide (ay < «by» + bh) && decide (ay + ah > «by»)

/-- The test of lines 61 and 75: the player's rectangle against platform `p`. -/
def overlaps (player : Player) (p : Platform) : Bool :=
  rectsOverlap player.x player.y player.width player.height p.x p.y p.width p.height

/-- The body of the loop of lines 60-69 for one platform `p`, in exact
arithmetic; `horizontalStepR` is the same step under a rounding. -/
def horizontalStep (player : Player) (p : Platform) : Player :=
  if overlaps player p then
    let player1 :=
      if player.vx > 0 then { player with x := p.x - player.width }
      else if player.vx < 0 then { player with x := p.x + p.width }
      else player
    { player1 with vx := 0 }
  else player

/-- Lines 59-70. -/
def resolveHorizontalCollisions (platforms : List Platform) (player : Player) : Player :=
  platforms.foldl horizontalStep player

/-- The body of the loop of lines 74-87 for one platform `p`, in exact
arithmetic (`verticalStepR` is the same step under a rounding); the second
component is the local `grounded`. -/
def verticalStep (s : Player × Bool) (p : Platform) : Player × Bool :=
  if overlaps s.1 p then
    if s.1.vy > 0 then ({ s.1 with y := p.y - s.1.height, vy := 0 }, true)
    else if s.1.vy < 0 then ({ s.1 with y := p.y + p.height, vy := 0 }, s.2)
    else s
  else s

/-- The loop of lines 73-87, started with `grounded = false`. -/
def verticalLoop (platforms : List Platform) (player : Player) : Player × Bool :=
  platforms.foldl verticalStep (player, false)

/-- Lines 88-94, given the player and `grounded` the loop left. -/
def settleGround (s : Player × Bool) : Player :=
  if s.2 then
    { s.1 with onGround := true, coyoteCounter := s.1.coyoteTimeFrames }
  else
    let player1 := { s.1 with onGround := false }
    if player1.coyoteCounter > 0 then
      { player1 with coyoteCounter := player1.coyoteCounter - 1 }
    else player1

/-- Lines 72-95. -/
def resolveVerticalCollisions (platforms : List Platform) (player : Player) : Player :=
  settleGround (verticalLoop platforms player)

/-- The pair of globals the key handlers write. -/
structure Game where
  input : Input
  player : Player
deriving DecidableEq

/-- The state the script starts in. -/
def game0 : Game :=
  { input := input0, player := player0 }

/-- Keys of line 99 and 108. -/
def leftKeys : List String := ["ArrowLeft", "a", "A"]

/-- Keys of line 100 and 109. -/
def rightKeys : List String := ["ArrowRight", "d", "D"]

/-- Keys of line 101 and 110. -/
def jumpKeys : List String := [" ", "w", "W", "ArrowUp"]

/-- The `keydown` listener, lines 98-106. -/
def keydown (key : String) (g : Game) : Game :=
  let g1 := if key ∈ leftKeys then { g with input := { g.input with left := true } } else g
  let g2 := if key ∈ rightKeys then { g1 with input := { g1.input with right := true } } else g1
  if key ∈ jumpKeys then
    { input := { g2.input with jump := true },
      player := { g2.player with jumpBufferCounter := g2.player.jumpBufferFrames } }
  else g2

/-- The `keyup` listener, lines 107-111. -/
def keyup (key : String) (g : Game) : Game :=
  let g1 := if key ∈ leftKeys then { g with input := { g.input with left := false } } else g
  let g2 := if key ∈ rightKeys then { g1 with input := { g1.input with right := false } } else g1
  if key ∈ jumpKeys then { g2 with input := { g2.input with jump := false } } else g2

/-- Line 114-115: the condition under which `tryJump` consumes the jump. -/
def jumpCondition (player : Player) : Bool :=
  let canJump := player.onGround || decide (player.coyoteCounter > 0)
  decide (player.jumpBufferCounter > 0) && canJump

/-- Lines 113-122: two consecutive `if` statements. -/
def tryJump (player : Player) : Player :=
  let player1 :=
    if jumpCondition player then
      { player with vy := -player.jumpStrength, onGround := false,
                    coyoteCounter := 0, jumpBufferCounter := 0 }
    else player
  if player1.jumpBufferCounter > 0 then
    { player1 with jumpBufferCounter := player1.jumpBufferCounter - 1 }
  else player1

/-- Lines 126-136: acceleration, friction and the speed clamp. -/
def horizontalIntent (input : Input) (player : Player) : Player :=
  let acceleratingLeft := input.left && !input.right
  let acceleratingRight := input.right && !input.left
  let player1 := if acceleratingLeft then { player with vx := player.vx - player.speed } else player
  let player2 :=
    if acceleratingRight then { player1 with vx := player1.vx + player1.speed } else player1
  let friction : ℚ := if player2.onGround then 75 / 100 else 92 / 100
  let player3 :=
    if !acceleratingLeft && !acceleratingRight then { player2 with vx := player2.vx * friction }
    else player2
  { player3 with vx := clamp player3.vx (-player3.maxSpeedX) player3.maxSpeedX }

/-- Line 139: `player.x += player.vx`. -/
def integrateX (player : Player) : Player :=
  { player with x := player.x + player.vx }

/-- Lines 143-144: gravity and `player.y += player.vy`. -/
def integrateY (world : World) (player : Player) : Player :=
  let player1 := { player with vy := player.vy + world.gravity }
  { player1 with y := player1.y + player1.vy }

/-- Lines 151-156. -/
def respawn (world : World) (player : Player) : Player :=
  if player.y > world.height + 200 then
    { player with x := 80, y := 0, vx := 0, vy := 0 }
  else player

/-- The player on entering the horizontal pass (after line 139). -/
def beforeHorizontal (input : Input) (player : Player) : Player :=
  integrateX (horizontalIntent input player)

/-- The player after the horizontal pass (after line 140). -/
def afterHorizontal (platforms : List Platform) (input : Input) (player : Player) : Player :=
  resolveHorizontalCollisions platforms (beforeHorizontal input player)

/-- The player on entering the vertical pass (after line 144). -/
def beforeVertical (world : World) (platforms : List Platform) (input : Input)
    (player : Player) : Player :=
  integrateY world (afterHorizontal platforms input player)

/-- The player after the vertical pass (after line 145). -/
def afterVertical (world : World) (platforms : List Platform) (input : Input)
    (player : Player) : Player :=
  resolveVerticalCollisions platforms (beforeVertical world platforms input player)

/-- Lines 124-157. -/
def update (world : World) (platforms : List Platform) (input : Input)
    (player : Player) : Player :=
  let player1 := horizontalIntent input player
  let player2 := integrateX player1
  let player3 := resolveHorizontalCollisions platforms player2
  let player4 := integrateY world player3
  let player5 := resolveVerticalCollisions platforms player4
  let player6 := tryJump player5
  respawn world player6

/-- The local `grounded` of the vertical pass of this frame: whether a downward
collision is resolved in `update`. -/
def landsInFrame (world : World) (platforms : List Platform) (input : Input)
    (player : Player) : Bool :=
  (verticalLoop platforms (beforeVertical world platforms input player)).2

/-- Whether `tryJump` consumes a jump in this frame's `update` (line 115). -/
def jumpFires (world : World) (platforms : List Platform) (input : Input)
    (player : Player) : Bool :=
  jumpCondition (afterVertical world platforms input player)

/-- Whether the reset of lines 151-156 is taken in this frame's `update`. -/
def respawnsInFrame (world : World) (platforms : List Platform) (input : Input)
    (player : Player) : Bool :=
  decide ((tryJump (afterVertical world platforms input player)).y > world.height + 200)

/-- Successive `update` calls, one per element of `inputs`, each frame reading
the input flags given for it. -/
def run (world : World) (platforms : List Platform) : List Input → Player → Player
  | [], player => player
  | input :: rest, player => run world platforms rest (update world platforms input player)

/-- Every frame of the run resolves no downward collision. -/
def airborneRun (world : World) (platforms : List Platform) : List Input → Player → Prop
  | [], _ => True
  | input :: rest, player =>
    landsInFrame world platforms input player = false ∧
      airborneRun world platforms rest (update world platforms input player)

/-- Line 103 alone: what a `keydown` of a jump key does to the player. -/
def requestJump (player : Player) : Player :=
  { player with jumpBufferCounter := player.jumpBufferFrames }

/-- The fields that only `resolveVerticalCollisions` (lines 88-94), `tryJump`
and the key handlers write, together with the tunables: they agree in `a` and
`b`. -/
def SameTimers (a b : Player) : Prop :=
  a.onGround = b.onGround ∧ a.coyoteTimeFrames = b.coyoteTimeFrames ∧
    a.coyoteCounter = b.coyoteCounter ∧ a.jumpBufferFrames = b.jumpBufferFrames ∧
    a.jumpBufferCounter = b.jumpBufferCounter ∧ a.jumpStrength = b.jumpStrength ∧
    a.maxSpeedX = b.maxSpeedX ∧ a.speed = b.speed ∧ a.width = b.width ∧ a.height = b.height

/-- Jump resolution as the specification words it (section 4.2, step 5): one
`if` / `else if`. -/
def tryJumpSpec (player : Player) : Player :=
  if player.jumpBufferCounter > 0 ∧ (player.onGround = true ∨ player.coyoteCounter > 0) then
    { player with vy := -player.jumpStrength, onGround := false,
                  coyoteCounter := 0, jumpBufferCounter := 0 }
  else if player.jumpBufferCounter > 0 then
    { player with jumpBufferCounter := player.jumpBufferCounter - 1 }
  else player

/-- Both counters lie between 0 and their configured maximum. -/
def CountersInRange (player : Player) : Prop :=
  0 ≤ player.coyoteCounter ∧ player.coyoteCounter ≤ player.coyoteTimeFrames ∧
    0 ≤ player.jumpBufferCounter ∧ player.jumpBufferCounter ≤ player.jumpBufferFrames

/-- The states the script can be in: it starts in `game0`, the animation loop
calls `update` (line 202) with the current `input`, and key events arrive between
frames. -/
inductive Reachable (world : World) (platforms : List Platform) : Game → Prop
  | start : Reachable world platforms game0
  | frame (g : Game) : Reachable world platforms g →
      Reachable world platforms { g with player := update world platforms g.input g.player }
  | keydown (key : String) (g : Game) : Reachable world platforms g →
      Reachable world platforms (keydown key g)
  | keyup (key : String) (g : Game) : Reachable world platforms g →
      Reachable world platforms (keyup key g)

/-- The input with only the right key held. -/
def holdRight : Input :=
  { left := false, right := true, jump := false }

/-- No active directional input: neither key held, or both (lines 126-127). -/
def noDirection (input : Input) : Prop :=
  input.left = input.right

/-- A wall whose left edge is at `x = 110`. -/
def nearWall : Platform :=
  { x := 110, y := 0, width := 50, height := 50 }

/-- A wall whose left edge is at `x = 120`, overlapping `nearWall`. -/
def farWall : Platform :=
  { x := 120, y := 0, width := 50, height := 50 }

/-- The initial player moved to `x = 100` (after `x += vx`) with `vx = 4`: its
rectangle, `100..132` wide, reaches into both walls. -/
def runner : Player :=
  { player0 with x := 100, vx := 4 }

/-- The initial player at `x = 96` with `vx = 4`, one frame before `runner`. -/
def runnerBefore : Player :=
  { player0 with x := 96, vx := 4 }

/-- A slab whose top is at `y = 100`. -/
def lowerSlab : Platform :=
  { x := 0, y := 100, width := 200, height := 20 }

/-- A slab whose top is at `y = 90`, overlapping `lowerSlab`. -/
def upperSlab : Platform :=
  { x := 0, y := 90, width := 200, height := 20 }

/-- The initial player at `y = 55`, falling with `vy = 2` and `vx = 0`. -/
def faller : Player :=
  { player0 with y := 55, vy := 2 }

/-- The first platform of the list that overlaps the player: the first element
of the overlapping platforms in iteration order. -/
def firstOverlap (platforms : List Platform) (player : Player) : Option Platform :=
  (platforms.filter (overlaps player)).head?

/-- The number of platforms of the list that overlap the player. -/
def overlapCount (platforms : List Platform) (player : Player) : ℕ :=
  (platforms.filter (overlaps player)).length

/-- The initial player put at `y = world.height + 201` on a 960x540 canvas,
moving up with `vy = -12`. -/
def risingBelowWorld : Player :=
  { player0 with y := 540 + 201, vy := -12 }

/-- A player that has just landed on the right end of the ledge at `x = 140`
of the source's level (960x540 canvas: the ledge top is at `y = 400`), running
right at full speed. -/
def ledgeWalker : Player :=
  { player0 with x := 259, y := 352, vx := 42 / 10, onGround := true, coyoteCounter := 6 }

/-- A slab whose top is at `y = 800`, more than 200 below a 540 high world. -/
def deepSlab : Platform :=
  { x := 0, y := 800, width := 960, height := 20 }

/-- The initial player (airborne, `coyoteCounter = 0`) at `y = 670`, falling with
`vy = 20`. -/
def deepFaller : Player :=
  { player0 with y := 670, vy := 20 }

/-- The initial player (airborne, `coyoteCounter = 0`) put at `y = 440` on a
960x540 canvas, above the ground of the source's level (top at `y = 492`). -/
def groundFaller : Player :=
  { player0 with y := 440 }

instance airborneRunDecidable (world : World) (platforms : List Platform) :
    ∀ (inputs : List Input) (player : Player),
      Decidable (airborneRun world platforms inputs player)
  | [], _ => isTrue trivial
  | input :: rest, player =>
    @instDecidableAnd _ _ _
      (airborneRunDecidable world platforms rest (update world platforms input player))

/-- The game after the space bar went down in the start state and one frame of
the source's level (960x540 canvas) was played with the key still held. -/
def heldJumpGame : Game :=
  { keydown " " game0 with
    player := update (worldOf 960 540) (levelPlatforms (worldOf 960 540))
      (keydown " " game0).input (keydown " " game0).player }

/-- The player as each platform is visited by the loop of lines 74-87, paired
with that platform. -/
def verticalVisits : List Platform → Player × Bool → List (Player × Platform)
  | [], _ => []
  | p :: rest, s => (s.1, p) :: verticalVisits rest (verticalStep s p)

/-- Some platform is met overlapping the player while `vy > 0` during the loop
of the vertical pass. -/
def metFalling (platforms : List Platform) (player : Player) : Prop :=
  ∃ v ∈ verticalVisits platforms (player, false), overlaps v.1 v.2 = true ∧ v.1.vy > 0

/-- The initial player rising with `vy = -5` into the underside of `lowerSlab`,
with three coyote frames left. -/
def headBumper : Player :=
  { player0 with y := 115, vy := -5, coyoteCounter := 3 }

/-- What happens to the script's state: a key goes down, a key goes up, or the
animation loop runs one frame (line 202). -/
inductive Event where
  | keydown (key : String)
  | keyup (key : String)
  | frame
deriving DecidableEq

/-- The effect of one event on the game. -/
def step (world : World) (platforms : List Platform) : Event → Game → Game
  | Event.keydown key, g => keydown key g
  | Event.keyup key, g => keyup key g
  | Event.frame, g => { g with player := update world platforms g.input g.player }

/-- The number of frames of the event sequence in which `tryJump` fires. -/
def jumpsIn (world : World) (platforms : List Platform) : List Event → Game → ℕ
  | [], _ => 0
  | Event.frame :: rest, g =>
    (if jumpFires world platforms g.input g.player then 1 else 0)
      + jumpsIn world platforms rest (step world platforms Event.frame g)
  | e :: rest, g => jumpsIn world platforms rest (step world platforms e g)

/-- The number of frames of the event sequence whose vertical pass resolves a
downward collision. -/
def landingsIn (world : World) (platforms : List Platform) : List Event → Game → ℕ
  | [], _ => 0
  | Event.frame :: rest, g =>
    (if landsInFrame world platforms g.input g.player then 1 else 0)
      + landingsIn world platforms rest (step world platforms Event.frame g)
  | e :: rest, g => landingsIn world platforms rest (step world platforms e g)

/-- A player at rest on `deepSlab` (top at `y = 800`): `y = 800 - 48`. -/
def deepRester : Player :=
  { player0 with y := 752, onGround := true, coyoteCounter := 6 }

/-- A player at rest on the ground platform of the source's level on a 960x540
canvas (top at `y = 492`): `y = 492 - 48`. -/
def groundRester : Player :=
  { player0 with y := 444, onGround := true, coyoteCounter := 6 }

/-- The number of binary digits of `n`, found by at most `fuel` halvings. -/
def bitLength : ℕ → ℕ → ℕ
  | 0, _ => 0
  | fuel + 1, n => if n = 0 then 0 else bitLength fuel (n / 2) + 1

/-- The JavaScript number nearest to `q`: `q` rounded to 53 significant binary
digits, ties to the even significand (IEEE 754 binary64, round to nearest).  The
exponent range is not bounded: overflow and subnormal numbers are not modelled. -/
def roundDouble (q : ℚ) : ℚ :=
  if q = 0 then 0
  else
    let n : ℕ := q.num.natAbs
    let d : ℕ := q.den
    let k : ℤ := (bitLength n n : ℤ) - (bitLength d d : ℤ)
    let atLeast : Bool :=
      if 0 ≤ k then decide (d * 2 ^ k.toNat ≤ n) else decide (d ≤ n * 2 ^ (-k).toNat)
    let e : ℤ := (if atLeast then k else k - 1) - 52
    let N : ℕ := if 0 ≤ e then n else n * 2 ^ (-e).toNat
    let D : ℕ := if 0 ≤ e then d * 2 ^ e.toNat else d
    let m0 : ℕ := N / D
    let r : ℕ := N % D
    let m : ℕ :=
      if 2 * r < D then m0
      else if D < 2 * r then m0 + 1
      else if m0 % 2 = 0 then m0 else m0 + 1
    let mag : ℚ :=
      if 0 ≤ e then ((m * 2 ^ e.toNat : ℕ) : ℚ) else (m : ℚ) / ((2 ^ (-e).toNat : ℕ) : ℚ)
    if q < 0 then -mag else mag

/-- Lines 55-57, each of the four sums rounded by `fl`. -/
def rectsOverlapR (fl : ℚ → ℚ) (ax ay aw ah bx «by» bw bh : ℚ) : Bool :=
  decide (ax < fl (bx + bw)) && decide (fl (ax + aw) > bx) &&
    decide (ay < fl («by» + bh)) && decide (fl (ay + ah) > «by»)

/-- The test of lines 61 and 75 under the rounding `fl`. -/
def overlapsR (fl : ℚ → ℚ) (player : Player) (p : Platform) : Bool :=
  rectsOverlapR fl player.x player.y player.width player.height p.x p.y p.width p.height

/-- The body of the loop of lines 60-69 for one platform `p`, the test and the
two snaps rounded by `fl`. -/
def horizontalStepR (fl : ℚ → ℚ) (player : Player) (p : Platform) : Player :=
  if overlapsR fl player p then
    let player1 :=
      if player.vx > 0 then { player with x := fl (p.x - player.width) }
      else if player.vx < 0 then { player with x := fl (p.x + p.width) }
      else player
    { player1 with vx := 0 }
  else player

/-- Lines 59-70 under the rounding `fl`. -/
def resolveHorizontalCollisionsR (fl : ℚ → ℚ) (platforms : List Platform)
    (player : Player) : Player :=
  platforms.foldl (horizontalStepR fl) player

/-- The body of the loop of lines 74-87 for one platform `p`, the test and the
two snaps rounded by `fl`; the second component is the local `grounded`. -/
def verticalStepR (fl : ℚ → ℚ) (s : Player × Bool) (p : Platform) : Player × Bool :=
  if overlapsR fl s.1 p then
    if s.1.vy > 0 then ({ s.1 with y := fl (p.y - s.1.height), vy := 0 }, true)
    else if s.1.vy < 0 then ({ s.1 with y := fl (p.y + p.height), vy := 0 }, s.2)
    else s
  else s

/-- The loop of lines 73-87 under the rounding `fl`, started with
`grounded = false`. -/
def verticalLoopR (fl : ℚ → ℚ) (platforms : List Platform) (player : Player) :
    Player × Bool :=
  platforms.foldl (verticalStepR fl) (player, false)

/-- Lines 72-95 under the rounding `fl` (the counters of lines 88-94 are small
integers, on which the arithmetic is exact). -/
def resolveVerticalCollisionsR (fl : ℚ → ℚ) (platforms : List Platform)
    (player : Player) : Player :=
  settleGround (verticalLoopR fl platforms player)

/-- The first platform of the list that overlaps the player under the rounding
`fl`. -/
def firstOverlapR (fl : ℚ → ℚ) (platforms : List Platform) (player : Player) :
    Option Platform :=
  (platforms.filter (overlapsR fl player)).head?

/-- A slab whose top is at the JavaScript number `0.1`. -/
def fracSlab : Platform :=
  { x := 0, y := roundDouble (1 / 10), width := 200, height := 20 }

/-- The initial player at `y = -47`, falling with `vy = 1`: its bottom edge, at
`y = 1`, is inside `fracSlab`. -/
def fracFaller : Player :=
  { player0 with y := -47, vy := 1 }

theorem update_eq (world : World) (platforms : List Platform) (input : Input)
    (player : Player) :
    update world platforms input player
      = respawn world (tryJump (afterVertical world platforms input player)) := rfl

/-! ## The horizontal pass -/

theorem horizontalStep_of_vx_zero (player : Player) (p : Platform) (h : player.vx = 0) :
    horizontalStep player p = player := by
  unfold horizontalStep
  split
  · simp only [h, gt_iff_lt, lt_self_iff_false, if_false]
    cases player
    simp_all
  · rfl

theorem resolveHorizontalCollisions_of_vx_zero (platforms : List Platform) (player : Player)
    (h : player.vx = 0) : resolveHorizontalCollisions platforms player = player := by
  induction platforms with
  | nil => rfl
  | cons p rest ih =>
    simp only [resolveHorizontalCollisions, List.foldl_cons] at ih ⊢
    rw [horizontalStep_of_vx_zero player p h]
    exact ih

theorem horizontalStep_vx_of_overlaps (player : Player) (p : Platform)
    (h : overlaps player p = true) : (horizontalStep player p).vx = 0 := by
  simp [horizontalStep, h]

theorem horizontalStep_of_not_overlaps (player : Player) (p : Platform)
    (h : overlaps player p = false) : horizontalStep player p = player := by
  simp [horizontalStep, h]

/-- The horizontal pass is decided by the first platform of the list that
overlaps the player on entry: the player is snapped against it, and every later
platform meets `vx = 0`. -/
theorem resolveHorizontalCollisions_eq_find (platforms : List Platform) (player : Player) :
    resolveHorizontalCollisions platforms player
      = match platforms.find? (overlaps player) with
        | none => player
        | some p => horizontalStep player p := by
  induction platforms with
  | nil => rfl
  | cons p rest ih =>
    cases hp : overlaps player p with
    | true =>
      simp only [List.find?_cons, hp]
      show resolveHorizontalCollisions rest (horizontalStep player p) = _
      exact resolveHorizontalCollisions_of_vx_zero rest _
        (horizontalStep_vx_of_overlaps player p hp)
    | false =>
      simp only [List.find?_cons, hp]
      show resolveHorizontalCollisions rest (horizontalStep player p) = _
      rw [horizontalStep_of_not_overlaps player p hp]
      exact ih

/-! ## The vertical pass -/

theorem verticalStep_of_vy_zero (s : Player × Bool) (p : Platform) (h : s.1.vy = 0) :
    verticalStep s p = s := by
  simp [verticalStep, h]

theorem verticalFold_of_vy_zero (platforms : List Platform) (s : Player × Bool)
    (h : s.1.vy = 0) : platforms.foldl verticalStep s = s := by
  induction platforms with
  | nil => rfl
  | cons p rest ih =>
    simp only [List.foldl_cons]
    rw [verticalStep_of_vy_zero s p h]
    exact ih

theorem verticalStep_vy_of_overlaps (s : Player × Bool) (p : Platform)
    (h : overlaps s.1 p = true) : (verticalStep s p).1.vy = 0 := by
  unfold verticalStep
  simp only [h, if_true]
  split
  · rfl
  · split
    · rfl
    · rename_i h1 h2
      exact le_antisymm (not_lt.mp h1) (not_lt.mp h2)

theorem verticalStep_of_not_overlaps (s : Player × Bool) (p : Platform)
    (h : overlaps s.1 p = false) : verticalStep s p = s := by
  simp [verticalStep, h]

/-- The loop of the vertical pass is decided by the first platform of the list
that overlaps the player on entry. -/
theorem verticalFold_eq_find (platforms : List Platform) (s : Player × Bool) :
    platforms.foldl verticalStep s
      = match platforms.find? (overlaps s.1) with
        | none => s
        | some p => verticalStep s p := by
  induction platforms with
  | nil => rfl
  | cons p rest ih =>
    cases hp : overlaps s.1 p with
    | true =>
      simp only [List.find?_cons, hp, List.foldl_cons]
      exact verticalFold_of_vy_zero rest _ (verticalStep_vy_of_overlaps s p hp)
    | false =>
      simp only [List.find?_cons, hp, List.foldl_cons]
      rw [verticalStep_of_not_overlaps s p hp]
      exact ih

/-! ## Fields the movement code leaves alone -/

theorem SameTimers.refl (a : Player) : SameTimers a a := by
  simp [SameTimers]

theorem SameTimers.trans {a b c : Player} (h1 : SameTimers a b) (h2 : SameTimers b c) :
    SameTimers a c := by
  simp only [SameTimers] at *
  obtain ⟨a1, a2, a3, a4, a5, a6, a7, a8, a9, a10⟩ := h1
  obtain ⟨b1, b2, b3, b4, b5, b6, b7, b8, b9, b10⟩ := h2
  exact ⟨a1.trans b1, a2.trans b2, a3.trans b3, a4.trans b4, a5.trans b5, a6.trans b6,
    a7.trans b7, a8.trans b8, a9.trans b9, a10.trans b10⟩

theorem horizontalIntent_sameTimers (input : Input) (player : Player) :
    SameTimers (horizontalIntent input player) player := by
  unfold horizontalIntent SameTimers
  cases input.left <;> cases input.right <;> simp

theorem integrateX_sameTimers (player : Player) : SameTimers (integrateX player) player := by
  simp [integrateX, SameTimers]

theorem integrateY_sameTimers (world : World) (player : Player) :
    SameTimers (integrateY world player) player := by
  simp [integrateY, SameTimers]

theorem horizontalStep_sameTimers (player : Player) (p : Platform) :
    SameTimers (horizontalStep player p) player := by
  unfold horizontalStep SameTimers
  split
  · split
    · simp
    · split <;> simp
  · simp

theorem resolveHorizontalCollisions_sameTimers (platforms : List Platform) (player : Player) :
    SameTimers (resolveHorizontalCollisions platforms player) player := by
  rw [resolveHorizontalCollisions_eq_find]
  split
  · exact SameTimers.refl _
  · exact horizontalStep_sameTimers _ _

theorem verticalStep_sameTimers (s : Player × Bool) (p : Platform) :
    SameTimers (verticalStep s p).1 s.1 := by
  unfold verticalStep SameTimers
  split
  · split
    · simp
    · split <;> simp
  · simp

theorem verticalLoop_sameTimers (platforms : List Platform) (player : Player) :
    SameTimers (verticalLoop platforms player).1 player := by
  unfold verticalLoop
  rw [verticalFold_eq_find]
  split
  · exact SameTimers.refl _
  · exact verticalStep_sameTimers _ _

theorem beforeVertical_sameTimers (world : World) (platforms : List Platform) (input : Input)
    (player : Player) : SameTimers (beforeVertical world platforms input player) player :=
  (integrateY_sameTimers _ _).trans
    ((resolveHorizontalCollisions_sameTimers _ _).trans
      ((integrateX_sameTimers _).trans (horizontalIntent_sameTimers _ _)))

theorem respawn_sameTimers (world : World) (player : Player) :
    SameTimers (respawn world player) player := by
  unfold respawn SameTimers
  split <;> simp

/-- What the vertical pass of a frame leaves in the ground flag and the two
counters, in terms of whether a downward collision was resolved. -/
theorem afterVertical_timers (world : World) (platforms : List Platform) (input : Input)
    (player : Player) :
    (afterVertical world platforms input player).onGround
        = landsInFrame world platforms input player ∧
      (afterVertical world platforms input player).coyoteCounter
        = (if landsInFrame world platforms input player then player.coyoteTimeFrames
           else if player.coyoteCounter > 0 then player.coyoteCounter - 1
           else player.coyoteCounter) ∧
      (afterVertical world platforms input player).jumpBufferCounter
        = player.jumpBufferCounter ∧
      (afterVertical world platforms input player).coyoteTimeFrames
        = player.coyoteTimeFrames ∧
      (afterVertical world platforms input player).jumpBufferFrames
        = player.jumpBufferFrames ∧
      (afterVertical world platforms input player).jumpStrength = player.jumpStrength := by
  have h := (verticalLoop_sameTimers platforms
    (beforeVertical world platforms input player)).trans
      (beforeVertical_sameTimers world platforms input player)
  obtain ⟨-, h2, h3, h4, h5, h6, -⟩ := h
  unfold afterVertical resolveVerticalCollisions settleGround landsInFrame
  cases hl : (verticalLoop platforms (beforeVertical world platforms input player)).2
  · simp only [Bool.false_eq_true, if_false, h3]
    split <;> simp [h2, h3, h4, h5, h6]
  · simp [h2, h3, h4, h5, h6]

/-! ## `tryJump` -/

theorem tryJump_eq_spec (player : Player) : tryJump player = tryJumpSpec player := by
  unfold tryJump tryJumpSpec jumpCondition
  by_cases hb : player.jumpBufferCounter > 0
  · by_cases hg : player.onGround = true
    · simp [hb, hg]
    · by_cases hc : player.coyoteCounter > 0
      · simp [hb, hc]
      · simp [hb, hg, hc]
  · simp [hb]

theorem tryJump_sameKinematics (player : Player) :
    (tryJump player).x = player.x ∧ (tryJump player).y = player.y ∧
      (tryJump player).vx = player.vx ∧ (tryJump player).maxSpeedX = player.maxSpeedX ∧
      (tryJump player).coyoteTimeFrames = player.coyoteTimeFrames ∧
      (tryJump player).jumpBufferFrames = player.jumpBufferFrames ∧
      (tryJump player).jumpStrength = player.jumpStrength := by
  rw [tryJump_eq_spec]
  unfold tryJumpSpec
  split
  · simp
  · split <;> simp

/-- C7. `tryJump` (two consecutive `if`s in the code) computes the specified
`if` / `else if`: with a pending request and eligibility the jump is consumed
(`vy = -jumpStrength`, `onGround = false`, both counters zero); otherwise a
pending request loses exactly one frame and nothing else changes; otherwise the
state is unchanged.  The second `if` never decrements after a consumed jump, and
`x`, `y`, `vx` are unchanged in every case. -/
theorem tryJump_refines_spec (player : Player) :
    tryJump player
        = (if player.jumpBufferCounter > 0 ∧
              (player.onGround = true ∨ player.coyoteCounter > 0) then
            { player with vy := -player.jumpStrength, onGround := false,
                          coyoteCounter := 0, jumpBufferCounter := 0 }
          else if player.jumpBufferCounter > 0 then
            { player with jumpBufferCounter := player.jumpBufferCounter - 1 }
          else player) ∧
      tryJump player = tryJumpSpec player ∧
      (jumpCondition player = false ∨ (tryJump player).jumpBufferCounter = 0) ∧
      (tryJump player).x = player.x ∧ (tryJump player).y = player.y ∧
      (tryJump player).vx = player.vx := by
  have h := tryJump_sameKinematics player
  refine ⟨tryJump_eq_spec player, tryJump_eq_spec player, ?_, h.1, h.2.1, h.2.2.1⟩
  cases hj : jumpCondition player
  · exact Or.inl rfl
  · exact Or.inr (by simp [tryJump, hj])

/-! ## The counters -/

theorem afterVertical_countersInRange (world : World) (platforms : List Platform)
    (input : Input) (player : Player) (h : CountersInRange player) :
    CountersInRange (afterVertical world platforms input player) := by
  obtain ⟨-, h2, h3, h4, h5, -⟩ := afterVertical_timers world platforms input player
  obtain ⟨c1, c2, c3, c4⟩ := h
  unfold CountersInRange
  rw [h2, h3, h4, h5]
  refine ⟨?_, ?_, c3, c4⟩
  · split
    · omega
    · split <;> omega
  · split
    · omega
    · split <;> omega

theorem tryJump_countersInRange (player : Player) (h : CountersInRange player) :
    CountersInRange (tryJump player) := by
  obtain ⟨c1, c2, c3, c4⟩ := h
  rw [tryJump_eq_spec]
  unfold tryJumpSpec CountersInRange
  split
  · simp only [le_refl, true_and]
    omega
  · split
    · simp only
      omega
    · exact ⟨c1, c2, c3, c4⟩

theorem respawn_countersInRange (world : World) (player : Player)
    (h : CountersInRange player) : CountersInRange (respawn world player) := by
  obtain ⟨-, h2, h3, h4, h5, -⟩ := respawn_sameTimers world player
  unfold CountersInRange at *
  rw [h2, h3, h4, h5]
  exact h

theorem update_countersInRange (world : World) (platforms : List Platform)
    (input : Input) (player : Player) (h : CountersInRange player) :
    CountersInRange (update world platforms input player) := by
  rw [update_eq]
  exact respawn_countersInRange _ _
    (tryJump_countersInRange _ (afterVertical_countersInRange _ _ _ _ h))

theorem keydown_countersInRange (key : String) (g : Game) (h : CountersInRange g.player) :
    CountersInRange (keydown key g).player := by
  obtain ⟨c1, c2, c3, c4⟩ := h
  unfold keydown CountersInRange
  by_cases hl : key ∈ leftKeys <;> by_cases hr : key ∈ rightKeys <;>
    by_cases hj : key ∈ jumpKeys <;> simp only [hl, hr, hj, if_true, if_false] <;>
    first
      | exact ⟨c1, c2, c3, c4⟩
      | exact ⟨c1, c2, le_trans c3 c4, le_refl _⟩

theorem keyup_player (key : String) (g : Game) : (keyup key g).player = g.player := by
  unfold keyup
  by_cases hl : key ∈ leftKeys <;> by_cases hr : key ∈ rightKeys <;>
    by_cases hj : key ∈ jumpKeys <;> simp [hl, hr, hj]

theorem player0_countersInRange : CountersInRange player0 := by
  simp [CountersInRange, player0]

theorem reachable_countersInRange (world : World) (platforms : List Platform) (g : Game)
    (h : Reachable world platforms g) : CountersInRange g.player := by
  induction h with
  | start => exact player0_countersInRange
  | frame g _ ih => exact update_countersInRange _ _ _ _ ih
  | keydown key g _ ih => exact keydown_countersInRange key g ih
  | keyup key g _ ih =>
    rw [keyup_player]
    exact ih

/-- C8. The counter range `0 ≤ coyoteCounter ≤ coyoteTimeFrames` and
`0 ≤ jumpBufferCounter ≤ jumpBufferFrames` is preserved by `update` (any world,
platform list and input), by the `keydown` handler and by the `keyup` handler
(any key); it holds in the initial state, and so in every reachable state. -/
theorem counters_in_range :
    (∀ (world : World) (platforms : List Platform) (input : Input) (player : Player),
        CountersInRange player → CountersInRange (update world platforms input player)) ∧
      (∀ (key : String) (g : Game),
        CountersInRange g.player → CountersInRange (keydown key g).player) ∧
      (∀ (key : String) (g : Game),
        CountersInRange g.player → CountersInRange (keyup key g).player) ∧
      CountersInRange game0.player ∧
      (∀ (world : World) (platforms : List Platform) (g : Game),
        Reachable world platforms g → CountersInRange g.player) :=
  ⟨update_countersInRange, keydown_countersInRange,
    fun key g h => by rw [keyup_player]; exact h,
    player0_countersInRange, reachable_countersInRange⟩

/-- The range invariant at a reachable state: the start state, a press of the
space bar, then one frame over the level of the source on a 960x540 canvas. -/
theorem counters_in_range_witness :
    Reachable (worldOf 960 540) (levelPlatforms (worldOf 960 540))
        { keydown " " game0 with
          player := update (worldOf 960 540) (levelPlatforms (worldOf 960 540))
            (keydown " " game0).input (keydown " " game0).player } ∧
      CountersInRange
        (update (worldOf 960 540) (levelPlatforms (worldOf 960 540))
          (keydown " " game0).input (keydown " " game0).player) :=
  ⟨Reachable.frame _ (Reachable.keydown " " _ Reachable.start),
    counters_in_range.2.2.2.2 _ _ _
      (Reachable.frame _ (Reachable.keydown " " _ Reachable.start))⟩

/-! ## Horizontal velocity -/

theorem clamp_bounds (value m : ℚ) (hm : 0 ≤ m) :
    -m ≤ clamp value (-m) m ∧ clamp value (-m) m ≤ m := by
  unfold clamp
  refine ⟨le_max_left _ _, max_le (by linarith) (min_le_left _ _)⟩

theorem abs_clamp_le (value m : ℚ) (hm : 0 ≤ m) : |clamp value (-m) m| ≤ |value| := by
  unfold clamp
  rw [abs_le]
  constructor
  · refine le_max_of_le_right (le_min ?_ (neg_abs_le value))
    have := abs_nonneg value
    linarith
  · refine max_le ?_ (le_trans (min_le_right _ _) (le_abs_self value))
    have := abs_nonneg value
    linarith

theorem horizontalIntent_vx (input : Input) (player : Player) :
    (horizontalIntent input player).vx
      = clamp
          (if (input.left && !input.right) = true then player.vx - player.speed
           else if (input.right && !input.left) = true then player.vx + player.speed
           else player.vx * (if player.onGround = true then 75 / 100 else 92 / 100))
          (-player.maxSpeedX) player.maxSpeedX := by
  unfold horizontalIntent
  cases input.left <;> cases input.right <;> simp

theorem verticalStep_vx (s : Player × Bool) (p : Platform) :
    (verticalStep s p).1.vx = s.1.vx ∧ (verticalStep s p).1.x = s.1.x := by
  unfold verticalStep
  split
  · split
    · simp
    · split <;> simp
  · simp

theorem verticalLoop_vx (platforms : List Platform) (player : Player) :
    (verticalLoop platforms player).1.vx = player.vx ∧
      (verticalLoop platforms player).1.x = player.x := by
  unfold verticalLoop
  rw [verticalFold_eq_find]
  split
  · simp
  · exact verticalStep_vx _ _

theorem settleGround_kinematics (s : Player × Bool) :
    (settleGround s).x = s.1.x ∧ (settleGround s).y = s.1.y ∧
      (settleGround s).vx = s.1.vx ∧ (settleGround s).vy = s.1.vy ∧
      (settleGround s).maxSpeedX = s.1.maxSpeedX := by
  unfold settleGround
  split
  · simp
  · simp only
    split <;> simp

theorem resolveVerticalCollisions_vx (platforms : List Platform) (player : Player) :
    (resolveVerticalCollisions platforms player).vx = player.vx ∧
      (resolveVerticalCollisions platforms player).x = player.x := by
  unfold resolveVerticalCollisions
  obtain ⟨h1, -, h3, -⟩ := settleGround_kinematics (verticalLoop platforms player)
  rw [h1, h3]
  exact verticalLoop_vx platforms player

theorem resolveHorizontalCollisions_vx (platforms : List Platform) (player : Player) :
    (resolveHorizontalCollisions platforms player).vx = 0 ∨
      (resolveHorizontalCollisions platforms player).vx = player.vx := by
  rw [resolveHorizontalCollisions_eq_find]
  split
  · exact Or.inr rfl
  · rename_i p hp
    exact Or.inl (horizontalStep_vx_of_overlaps _ _ (by simpa using List.find?_some hp))

/-- After `update`, `vx` is either 0 (a horizontal collision or the respawn) or
the clamped value of line 136. -/
theorem update_vx (world : World) (platforms : List Platform) (input : Input)
    (player : Player) :
    (update world platforms input player).vx = 0 ∨
      (update world platforms input player).vx = (horizontalIntent input player).vx := by
  rw [update_eq]
  unfold respawn
  split
  · exact Or.inl rfl
  · rw [(tryJump_sameKinematics _).2.2.1]
    unfold afterVertical beforeVertical
    rw [(resolveVerticalCollisions_vx _ _).1]
    show (afterHorizontal platforms input player).vx = 0 ∨
      (afterHorizontal platforms input player).vx = _
    exact resolveHorizontalCollisions_vx platforms _

theorem update_maxSpeedX (world : World) (platforms : List Platform) (input : Input)
    (player : Player) : (update world platforms input player).maxSpeedX = player.maxSpeedX := by
  rw [update_eq]
  obtain ⟨-, -, -, -, -, -, h7, -⟩ := respawn_sameTimers world
    (tryJump (afterVertical world platforms input player))
  rw [h7, (tryJump_sameKinematics _).2.2.2.1]
  unfold afterVertical resolveVerticalCollisions
  rw [(settleGround_kinematics _).2.2.2.2]
  obtain ⟨-, -, -, -, -, -, h7, -⟩ := (verticalLoop_sameTimers platforms
    (beforeVertical world platforms input player)).trans
      (beforeVertical_sameTimers world platforms input player)
  exact h7

theorem run_maxSpeedX (world : World) (platforms : List Platform) (inputs : List Input)
    (player : Player) : (run world platforms inputs player).maxSpeedX = player.maxSpeedX := by
  induction inputs generalizing player with
  | nil => rfl
  | cons input rest ih =>
    show (run world platforms rest (update world platforms input player)).maxSpeedX = _
    rw [ih, update_maxSpeedX]

theorem update_vx_bounds (world : World) (platforms : List Platform) (input : Input)
    (player : Player) (hm : 0 ≤ player.maxSpeedX) :
    -player.maxSpeedX ≤ (update world platforms input player).vx ∧
      (update world platforms input player).vx ≤ player.maxSpeedX := by
  rcases update_vx world platforms input player with h | h
  · rw [h]
    exact ⟨by linarith, hm⟩
  · rw [h, horizontalIntent_vx]
    exact clamp_bounds _ _ hm

theorem run_append (world : World) (platforms : List Platform) (as bs : List Input)
    (player : Player) :
    run world platforms (as ++ bs) player
      = run world platforms bs (run world platforms as player) := by
  induction as generalizing player with
  | nil => rfl
  | cons input rest ih => exact ih _

/-- C9. With `maxSpeedX ≥ 0` (it is 4.2), after `update` the horizontal velocity
lies in `[-maxSpeedX, maxSpeedX]` whatever `vx`, the input and the platforms
were; hence after any positive number of frames, with any inputs and in
particular with the right key held throughout, `vx` does not exceed
`maxSpeedX`. -/
theorem max_speed_clamp (world : World) (platforms : List Platform) (player : Player)
    (hm : 0 ≤ player.maxSpeedX) :
    (∀ input : Input,
        -player.maxSpeedX ≤ (update world platforms input player).vx ∧
          (update world platforms input player).vx ≤ player.maxSpeedX) ∧
      (∀ (inputs : List Input) (input : Input),
        -player.maxSpeedX ≤ (run world platforms (inputs ++ [input]) player).vx ∧
          (run world platforms (inputs ++ [input]) player).vx ≤ player.maxSpeedX) ∧
      (∀ n : ℕ,
        (run world platforms (List.replicate (n + 1) holdRight) player).vx
          ≤ player.maxSpeedX) := by
  have hrun : ∀ (inputs : List Input) (input : Input),
      -player.maxSpeedX ≤ (run world platforms (inputs ++ [input]) player).vx ∧
        (run world platforms (inputs ++ [input]) player).vx ≤ player.maxSpeedX := by
    intro inputs input
    rw [run_append]
    have h := update_vx_bounds world platforms input (run world platforms inputs player)
      (by rw [run_maxSpeedX]; exact hm)
    rw [run_maxSpeedX] at h
    exact h
  refine ⟨fun input => update_vx_bounds world platforms input player hm, hrun, ?_⟩
  intro n
  have h := (hrun (List.replicate n holdRight) holdRight).2
  rw [← List.replicate_succ'] at h
  exact h

/-- The clamp at the source's constants: a player moving at `vx = 10` over the
level of the source, right key held. -/
theorem max_speed_clamp_witness :
    (0 : ℚ) ≤ ({ player0 with vx := 10 } : Player).maxSpeedX ∧
      (run (worldOf 960 540) (levelPlatforms (worldOf 960 540))
          (List.replicate (2 + 1) holdRight) { player0 with vx := 10 }).vx
        ≤ ({ player0 with vx := 10 } : Player).maxSpeedX :=
  ⟨by decide!, (max_speed_clamp (worldOf 960 540) (levelPlatforms (worldOf 960 540))
      { player0 with vx := 10 } (by decide!)).2.2 2⟩

/-! ## Friction -/

theorem update_abs_vx_le (world : World) (platforms : List Platform) (input : Input)
    (player : Player) (hm : 0 ≤ player.maxSpeedX) (hin : noDirection input) :
    |(update world platforms input player).vx|
      ≤ (if player.onGround = true then 75 / 100 else 92 / 100) * |player.vx| := by
  have hf : (0 : ℚ) ≤ (if player.onGround = true then 75 / 100 else 92 / 100) := by
    split <;> norm_num
  rcases update_vx world platforms input player with h | h
  · rw [h, abs_zero]
    exact mul_nonneg hf (abs_nonneg _)
  · rw [h, horizontalIntent_vx]
    unfold noDirection at hin
    have h1 : (input.left && !input.right) = false := by
      rw [hin]; cases input.right <;> rfl
    have h2 : (input.right && !input.left) = false := by
      rw [hin]; cases input.right <;> rfl
    simp only [h1, h2, Bool.false_eq_true, if_false]
    refine le_trans (abs_clamp_le _ _ hm) ?_
    rw [abs_mul, abs_of_nonneg hf, mul_comm]

theorem update_abs_vx_le_air (world : World) (platforms : List Platform) (input : Input)
    (player : Player) (hm : 0 ≤ player.maxSpeedX) (hin : noDirection input) :
    |(update world platforms input player).vx| ≤ 92 / 100 * |player.vx| := by
  refine le_trans (update_abs_vx_le world platforms input player hm hin) ?_
  refine mul_le_mul_of_nonneg_right ?_ (abs_nonneg _)
  split <;> norm_num

theorem run_abs_vx_le (world : World) (platforms : List Platform) (inputs : List Input)
    (player : Player) (hm : 0 ≤ player.maxSpeedX) (hin : ∀ input ∈ inputs, noDirection input) :
    |(run world platforms inputs player).vx| ≤ (92 / 100) ^ inputs.length * |player.vx| := by
  induction inputs generalizing player with
  | nil => simp [run]
  | cons input rest ih =>
    show |(run world platforms rest (update world platforms input player)).vx| ≤ _
    have h1 := ih (update world platforms input player)
      (by rw [update_maxSpeedX]; exact hm)
      (fun i hi => hin i (List.mem_cons_of_mem _ hi))
    have h2 := update_abs_vx_le_air world platforms input player hm
      (hin input (List.mem_cons_self _ _))
    have h3 : (0 : ℚ) ≤ (92 / 100) ^ rest.length := by positivity
    calc |(run world platforms rest (update world platforms input player)).vx|
        ≤ (92 / 100) ^ rest.length * |(update world platforms input player).vx| := h1
      _ ≤ (92 / 100) ^ rest.length * (92 / 100 * |player.vx|) :=
          mul_le_mul_of_nonneg_left h2 h3
      _ = (92 / 100) ^ (input :: rest).length * |player.vx| := by
          rw [List.length_cons, pow_succ]; ring

/-- C10. Over exact rationals and with `maxSpeedX ≥ 0` (it is 4.2): when `vx ≠ 0`
and there is no active directional input (neither key, or both), `update`
strictly decreases `|vx|`, to at most `0.75 * |vx|` when `onGround` held at the
start of the frame and at most `0.92 * |vx|` otherwise; after `n` such frames
`|vx| ≤ 0.92 ^ n * |vx0|`, and `vx` tends to 0 (it is eventually below every
positive bound). -/
theorem friction_convergence (world : World) (platforms : List Platform) (player : Player)
    (hm : 0 ≤ player.maxSpeedX) :
    (∀ input : Input, noDirection input → player.vx ≠ 0 →
        |(update world platforms input player).vx| < |player.vx| ∧
          |(update world platforms input player).vx|
            ≤ (if player.onGround = true then 75 / 100 else 92 / 100) * |player.vx|) ∧
      (∀ inputs : List Input, (∀ input ∈ inputs, noDirection input) →
        |(run world platforms inputs player).vx|
          ≤ (92 / 100) ^ inputs.length * |player.vx|) ∧
      (∀ ε : ℚ, 0 < ε → ∃ N : ℕ, ∀ inputs : List Input,
        (∀ input ∈ inputs, noDirection input) → N ≤ inputs.length →
          |(run world platforms inputs player).vx| < ε) := by
  refine ⟨?_, fun inputs hin => run_abs_vx_le world platforms inputs player hm hin, ?_⟩
  · intro input hin hvx
    have h := update_abs_vx_le world platforms input player hm hin
    refine ⟨lt_of_le_of_lt h ?_, h⟩
    have hpos : 0 < |player.vx| := abs_pos.mpr hvx
    split <;> nlinarith
  · intro ε hε
    by_cases hvx : player.vx = 0
    · refine ⟨0, fun inputs hin _ => ?_⟩
      have h := run_abs_vx_le world platforms inputs player hm hin
      rw [hvx, abs_zero, mul_zero] at h
      exact lt_of_le_of_lt h hε
    · have hpos : 0 < |player.vx| := abs_pos.mpr hvx
      obtain ⟨N, hN⟩ := exists_pow_lt_of_lt_one (div_pos hε hpos)
        (show (92 / 100 : ℚ) < 1 by norm_num)
      refine ⟨N, fun inputs hin hlen => ?_⟩
      have h := run_abs_vx_le world platforms inputs player hm hin
      have hmono : (92 / 100 : ℚ) ^ inputs.length ≤ (92 / 100) ^ N :=
        pow_le_pow_of_le_one (by norm_num) (by norm_num) hlen
      have h2 : (92 / 100 : ℚ) ^ N * |player.vx| < ε := by
        have := mul_lt_mul_of_pos_right hN hpos
        rwa [div_mul_cancel₀ _ (ne_of_gt hpos)] at this
      calc |(run world platforms inputs player).vx|
          ≤ (92 / 100) ^ inputs.length * |player.vx| := h
        _ ≤ (92 / 100) ^ N * |player.vx| := mul_le_mul_of_nonneg_right hmono (abs_nonneg _)
        _ < ε := h2

/-- Friction at the source's constants: a grounded player with `vx = 4` and no
key held, over the level of the source. -/
theorem friction_convergence_witness :
    (0 : ℚ) ≤ ({ player0 with vx := 4, onGround := true } : Player).maxSpeedX ∧
      noDirection input0 ∧ ({ player0 with vx := 4, onGround := true } : Player).vx ≠ 0 ∧
      |(update (worldOf 960 540) (levelPlatforms (worldOf 960 540)) input0
          { player0 with vx := 4, onGround := true }).vx|
        < |({ player0 with vx := 4, onGround := true } : Player).vx| :=
  ⟨by decide!, rfl, by decide!,
    ((friction_convergence (worldOf 960 540) (levelPlatforms (worldOf 960 540))
      { player0 with vx := 4, onGround := true } (by decide!)).1 input0 rfl
        (by decide!)).1⟩

/-! ## Which platform a pass snaps against -/

theorem find?_eq_firstOverlap (platforms : List Platform) (player : Player) :
    platforms.find? (overlaps player) = firstOverlap platforms player := by
  unfold firstOverlap
  induction platforms with
  | nil => rfl
  | cons p rest ih =>
    cases hp : overlaps player p
    · rw [List.find?_cons_of_neg _ (by simp [hp]), List.filter_cons_of_neg (by simp [hp])]
      exact ih
    · rw [List.find?_cons_of_pos _ hp, List.filter_cons_of_pos hp]
      rfl

theorem firstOverlap_overlaps (platforms : List Platform) (player : Player) (p : Platform)
    (h : firstOverlap platforms player = some p) : overlaps player p = true := by
  rw [← find?_eq_firstOverlap] at h
  exact List.find?_some h

theorem resolveHorizontalCollisions_of_firstOverlap (platforms : List Platform)
    (player : Player) (p : Platform) (h : firstOverlap platforms player = some p) :
    resolveHorizontalCollisions platforms player = horizontalStep player p := by
  rw [resolveHorizontalCollisions_eq_find, find?_eq_firstOverlap, h]

theorem resolveHorizontalCollisions_of_no_overlap (platforms : List Platform)
    (player : Player) (h : firstOverlap platforms player = none) :
    resolveHorizontalCollisions platforms player = player := by
  rw [resolveHorizontalCollisions_eq_find, find?_eq_firstOverlap, h]

theorem verticalLoop_of_firstOverlap (platforms : List Platform)
    (player : Player) (p : Platform) (h : firstOverlap platforms player = some p) :
    verticalLoop platforms player = verticalStep (player, false) p := by
  unfold verticalLoop
  rw [verticalFold_eq_find, find?_eq_firstOverlap, h]

theorem verticalLoop_of_no_overlap (platforms : List Platform)
    (player : Player) (h : firstOverlap platforms player = none) :
    verticalLoop platforms player = (player, false) := by
  unfold verticalLoop
  rw [verticalFold_eq_find, find?_eq_firstOverlap, h]

theorem firstOverlap_eq_none_iff (platforms : List Platform) (player : Player) :
    firstOverlap platforms player = none ↔ ∀ p ∈ platforms, overlaps player p = false := by
  rw [← find?_eq_firstOverlap, List.find?_eq_none]
  simp

theorem horizontalStep_snap (player : Player) (p : Platform) (h : overlaps player p = true) :
    (horizontalStep player p).x
        = (if player.vx > 0 then p.x - player.width
           else if player.vx < 0 then p.x + p.width else player.x) ∧
      (horizontalStep player p).vx = 0 ∧ (horizontalStep player p).y = player.y ∧
      (horizontalStep player p).vy = player.vy ∧
      (horizontalStep player p).width = player.width ∧
      (horizontalStep player p).height = player.height := by
  unfold horizontalStep
  simp only [h, if_true]
  split
  · simp
  · split <;> simp

theorem verticalStep_snap (player : Player) (g : Bool) (p : Platform)
    (h : overlaps player p = true) :
    (verticalStep (player, g) p).1.y
        = (if player.vy > 0 then p.y - player.height
           else if player.vy < 0 then p.y + p.height else player.y) ∧
      (verticalStep (player, g) p).1.vy = 0 ∧
      (verticalStep (player, g) p).1.x = player.x ∧
      (verticalStep (player, g) p).1.vx = player.vx ∧
      (verticalStep (player, g) p).1.width = player.width ∧
      (verticalStep (player, g) p).1.height = player.height ∧
      (verticalStep (player, g) p).2 = (decide (player.vy > 0) || g) := by
  unfold verticalStep
  simp only [h, if_true]
  split
  · rename_i h1
    simp [h1]
  · rename_i h1
    split
    · simp [h1]
    · rename_i h2
      simp only [h1, decide_False, Bool.false_or, and_self, and_true, true_and]
      exact le_antisymm (not_lt.mp h1) (not_lt.mp h2)

theorem firstOverlap_perm (platforms platforms' : List Platform) (player : Player)
    (hperm : platforms.Perm platforms') (hone : overlapCount platforms player ≤ 1) :
    firstOverlap platforms' player = firstOverlap platforms player := by
  unfold firstOverlap
  unfold overlapCount at hone
  have hf := hperm.filter (overlaps player)
  match hl : platforms.filter (overlaps player) with
  | [] =>
    rw [hl] at hf
    rw [← hf.nil_eq]
  | [a] =>
    rw [hl] at hf
    rw [List.perm_singleton.mp hf.symm]
  | a :: b :: rest =>
    rw [hl] at hone
    simp at hone

/-- C3 (as the code has it). In the horizontal pass the first overlapping
platform wins: when `vx ≠ 0` and `p` is the first platform of the list that
overlaps the player's rectangle after `x += vx`, `resolveHorizontalCollisions`
leaves `x = p.x - player.width` if `vx > 0` and `x = p.x + p.width` if `vx < 0`,
and `vx = 0`; every later overlap is met with `vx = 0` and moves nothing. -/
theorem first_overlap_wins (platforms : List Platform) (player : Player) (p : Platform)
    (hv : player.vx ≠ 0) (hp : firstOverlap platforms player = some p) :
    (resolveHorizontalCollisions platforms player).x
        = (if player.vx > 0 then p.x - player.width else p.x + p.width) ∧
      (resolveHorizontalCollisions platforms player).vx = 0 := by
  rw [resolveHorizontalCollisions_of_firstOverlap platforms player p hp]
  obtain ⟨hx, hvx, -⟩ := horizontalStep_snap player p (firstOverlap_overlaps _ _ _ hp)
  refine ⟨?_, hvx⟩
  rw [hx]
  rcases lt_or_gt_of_ne hv with hneg | hpos
  · have : ¬ player.vx > 0 := not_lt.mpr (le_of_lt hneg)
    simp [this, hneg]
  · simp [hpos]

/-- First-overlap-wins at two overlapping walls: the player ends against the
first one, at `x = 110 - 32`. -/
theorem first_overlap_wins_witness :
    runner.vx ≠ 0 ∧ firstOverlap [nearWall, farWall] runner = some nearWall ∧
      (resolveHorizontalCollisions [nearWall, farWall] runner).x = 78 :=
  ⟨by decide!, by decide!,
    (first_overlap_wins [nearWall, farWall] runner nearWall (by decide!) (by decide!)).1.trans
      (by decide!)⟩

/-- C3 fails as stated: with `vx = 4` and the two walls both overlapping the
player's rectangle, the horizontal pass leaves `x = 78`, the snap position of the
first wall, not `x = 88`, the snap position of the last one. -/
theorem last_overlap_wins_counterexample :
    runner.vx > 0 ∧
      [nearWall, farWall].filter (overlaps runner) = [nearWall, farWall] ∧
      (resolveHorizontalCollisions [nearWall, farWall] runner).x = nearWall.x - runner.width ∧
      (resolveHorizontalCollisions [nearWall, farWall] runner).x ≠ farWall.x - runner.width := by
  decide!

/-- C2 fails as stated: the two slabs have positive width and height, and in
one `update` of the falling player the rectangle still overlaps `upperSlab` after
the horizontal pass (it was met with `vx = 0`) and again after the vertical pass
(the player was snapped onto `lowerSlab`, which leaves it inside `upperSlab`). -/
theorem zero_overlap_counterexample :
    (∀ p ∈ [lowerSlab, upperSlab], 0 < p.width ∧ 0 < p.height) ∧
      overlaps (afterHorizontal [lowerSlab, upperSlab] input0 faller) upperSlab = true ∧
      overlaps (afterVertical (worldOf 960 540) [lowerSlab, upperSlab] input0 faller)
        upperSlab = true ∧
      (afterVertical (worldOf 960 540) [lowerSlab, upperSlab] input0 faller).y = 52 := by
  decide!

/-! ## Platform order -/

theorem resolveHorizontalCollisions_perm (platforms platforms' : List Platform)
    (player : Player) (hperm : platforms.Perm platforms')
    (hone : overlapCount platforms player ≤ 1) :
    resolveHorizontalCollisions platforms' player
      = resolveHorizontalCollisions platforms player := by
  rw [resolveHorizontalCollisions_eq_find, resolveHorizontalCollisions_eq_find,
    find?_eq_firstOverlap, find?_eq_firstOverlap,
    firstOverlap_perm platforms platforms' player hperm hone]

theorem verticalLoop_perm (platforms platforms' : List Platform)
    (player : Player) (hperm : platforms.Perm platforms')
    (hone : overlapCount platforms player ≤ 1) :
    verticalLoop platforms' player = verticalLoop platforms player := by
  unfold verticalLoop
  rw [verticalFold_eq_find, verticalFold_eq_find, find?_eq_firstOverlap,
    find?_eq_firstOverlap, firstOverlap_perm platforms platforms' player hperm hone]

/-- C4 (as the code has it). The order of the platform list is irrelevant when
no pass has to choose between platforms: if at most one platform of the list
overlaps the player's rectangle on entering the horizontal pass and at most one
on entering the vertical pass, `update` against any permutation of the list
yields exactly the same player state. -/
theorem update_perm (world : World) (platforms platforms' : List Platform) (input : Input)
    (player : Player) (hperm : platforms.Perm platforms')
    (hH : overlapCount platforms (beforeHorizontal input player) ≤ 1)
    (hV : overlapCount platforms (beforeVertical world platforms input player) ≤ 1) :
    update world platforms' input player = update world platforms input player := by
  have h1 : afterHorizontal platforms' input player = afterHorizontal platforms input player :=
    resolveHorizontalCollisions_perm platforms platforms' _ hperm hH
  have h2 : beforeVertical world platforms' input player
      = beforeVertical world platforms input player := by
    unfold beforeVertical
    rw [h1]
  rw [update_eq, update_eq]
  unfold afterVertical resolveVerticalCollisions
  rw [h2, verticalLoop_perm platforms platforms' _ hperm hV]

/-- Order irrelevance on the level of the source, reversed, for the initial
player on a 960x540 canvas. -/
theorem update_perm_witness :
    (levelPlatforms (worldOf 960 540)).Perm (levelPlatforms (worldOf 960 540)).reverse ∧
      update (worldOf 960 540) (levelPlatforms (worldOf 960 540)).reverse input0 player0
        = update (worldOf 960 540) (levelPlatforms (worldOf 960 540)) input0 player0 :=
  ⟨(List.reverse_perm _).symm,
    update_perm (worldOf 960 540) (levelPlatforms (worldOf 960 540))
      (levelPlatforms (worldOf 960 540)).reverse input0 player0
      (List.reverse_perm _).symm (by decide!) (by decide!)⟩

/-- C4 fails as stated: with the right key held, `update` against
`[nearWall, farWall]` stops the player at `x = 78` and leaves it falling, while
`update` against the permutation `[farWall, nearWall]` stops it at `x = 88` and
lands it on `nearWall`. -/
theorem platform_order_counterexample :
    [nearWall, farWall].Perm [farWall, nearWall] ∧
      (update (worldOf 960 540) [nearWall, farWall] holdRight runnerBefore).x = 78 ∧
      (update (worldOf 960 540) [farWall, nearWall] holdRight runnerBefore).x = 88 ∧
      (update (worldOf 960 540) [nearWall, farWall] holdRight runnerBefore).onGround = false ∧
      (update (worldOf 960 540) [farWall, nearWall] holdRight runnerBefore).onGround = true ∧
      update (worldOf 960 540) [farWall, nearWall] holdRight runnerBefore
        ≠ update (worldOf 960 540) [nearWall, farWall] holdRight runnerBefore :=
  ⟨List.Perm.swap _ _ _, by decide!, by decide!, by decide!, by decide!, by decide!⟩

/-! ## Respawn -/

theorem horizontalIntent_vertical (input : Input) (player : Player) :
    (horizontalIntent input player).y = player.y ∧
      (horizontalIntent input player).vy = player.vy := by
  unfold horizontalIntent
  cases input.left <;> cases input.right <;> simp

theorem resolveHorizontalCollisions_vertical (platforms : List Platform) (player : Player) :
    (resolveHorizontalCollisions platforms player).y = player.y ∧
      (resolveHorizontalCollisions platforms player).vy = player.vy := by
  rw [resolveHorizontalCollisions_eq_find]
  split
  · exact ⟨rfl, rfl⟩
  · rename_i p hp
    obtain ⟨-, -, hy, hvy, -⟩ := horizontalStep_snap player p (List.find?_some hp)
    exact ⟨hy, hvy⟩

theorem beforeVertical_vertical (world : World) (platforms : List Platform) (input : Input)
    (player : Player) :
    (beforeVertical world platforms input player).y
        = player.y + (player.vy + world.gravity) ∧
      (beforeVertical world platforms input player).vy = player.vy + world.gravity := by
  unfold beforeVertical afterHorizontal beforeHorizontal
  obtain ⟨h1, h2⟩ := resolveHorizontalCollisions_vertical platforms
    (integrateX (horizontalIntent input player))
  obtain ⟨h3, h4⟩ := horizontalIntent_vertical input player
  simp only [integrateY, h1, h2]
  simp [integrateX, h3, h4]

theorem update_of_respawn (world : World) (platforms : List Platform) (input : Input)
    (player : Player)
    (h : (tryJump (afterVertical world platforms input player)).y > world.height + 200) :
    (update world platforms input player).x = 80 ∧
      (update world platforms input player).y = 0 ∧
      (update world platforms input player).vx = 0 ∧
      (update world platforms input player).vy = 0 := by
  rw [update_eq]
  unfold respawn
  rw [if_pos h]
  exact ⟨rfl, rfl, rfl, rfl⟩

/-- C6 (as the code has it). Respawn from `y = world.height + 201`: if moreover
`vy + gravity > -1` (so that the vertical integration of the frame leaves the
player below `world.height + 200`) and every platform lies at or above
`world.height + 200` (as the level's own platforms do), one `update` leaves
`x = 80`, `y = 0`, `vx = 0` and `vy = 0`, whatever the input and the other
fields. -/
theorem respawn_below_world (world : World) (platforms : List Platform) (input : Input)
    (player : Player) (hy : player.y = world.height + 201)
    (hv : player.vy + world.gravity > -1)
    (hps : ∀ p ∈ platforms, p.y + p.height ≤ world.height + 200) :
    (update world platforms input player).x = 80 ∧
      (update world platforms input player).y = 0 ∧
      (update world platforms input player).vx = 0 ∧
      (update world platforms input player).vy = 0 := by
  apply update_of_respawn
  obtain ⟨hby, -⟩ := beforeVertical_vertical world platforms input player
  have hbelow : (beforeVertical world platforms input player).y > world.height + 200 := by
    rw [hby, hy]
    linarith
  have hnone : firstOverlap platforms (beforeVertical world platforms input player) = none := by
    rw [firstOverlap_eq_none_iff]
    intro p hp
    have := hps p hp
    unfold overlaps rectsOverlap
    have hfar : ¬ (beforeVertical world platforms input player).y < p.y + p.height := by
      rw [not_lt]
      linarith
    simp [hfar]
  rw [(tryJump_sameKinematics _).2.1]
  unfold afterVertical resolveVerticalCollisions
  rw [(settleGround_kinematics _).2.1, verticalLoop_of_no_overlap _ _ hnone]
  exact hbelow

/-- Respawn on the level of the source: the initial player put at
`y = 540 + 201` on a 960x540 canvas. -/
theorem respawn_below_world_witness :
    ({ player0 with y := 540 + 201 } : Player).y = (worldOf 960 540).height + 201 ∧
      (update (worldOf 960 540) (levelPlatforms (worldOf 960 540)) holdRight
        { player0 with y := 540 + 201 }).y = 0 :=
  ⟨by decide!,
    (respawn_below_world (worldOf 960 540) (levelPlatforms (worldOf 960 540)) holdRight
      { player0 with y := 540 + 201 } (by decide!) (by decide!) (by decide!)).2.1⟩

/-- C6 fails as stated: a player at `y = world.height + 201` that is moving up
with `vy = -12` is carried to `y = world.height + 189.6` by the frame's vertical
integration, so the respawn test of line 151 fails and `update` leaves
`y = 729.6` and `vy = -11.4`. -/
theorem respawn_counterexample :
    risingBelowWorld.y = (worldOf 960 540).height + 201 ∧
      (update (worldOf 960 540) (levelPlatforms (worldOf 960 540)) input0 risingBelowWorld).y
        = 7296 / 10 ∧
      (update (worldOf 960 540) (levelPlatforms (worldOf 960 540)) input0 risingBelowWorld).y
        ≠ 0 ∧
      (update (worldOf 960 540) (levelPlatforms (worldOf 960 540)) input0 risingBelowWorld).vy
        = -(114 / 10) := by
  decide!

/-! ## The jump timers over a frame -/

theorem tryJump_fields (player : Player) :
    (tryJump player).coyoteCounter
        = (if jumpCondition player = true then 0 else player.coyoteCounter) ∧
      (tryJump player).jumpBufferCounter
        = (if jumpCondition player = true then 0
           else if player.jumpBufferCounter > 0 then player.jumpBufferCounter - 1
           else player.jumpBufferCounter) ∧
      (tryJump player).onGround = (player.onGround && !jumpCondition player) ∧
      (tryJump player).vy
        = (if jumpCondition player = true then -player.jumpStrength else player.vy) := by
  unfold tryJump
  cases hj : jumpCondition player
  · simp only [Bool.false_eq_true, if_false, Bool.not_false, Bool.and_true]
    split <;> simp
  · simp

/-- What one `update` does to the ground flag and the two counters, in terms of
whether the frame resolved a downward collision and whether `tryJump` fired. -/
theorem update_counters (world : World) (platforms : List Platform) (input : Input)
    (player : Player) :
    jumpFires world platforms input player
        = (decide (player.jumpBufferCounter > 0) &&
            (landsInFrame world platforms input player ||
              decide ((if landsInFrame world platforms input player = true
                  then player.coyoteTimeFrames
                else if player.coyoteCounter > 0 then player.coyoteCounter - 1
                else player.coyoteCounter) > 0))) ∧
      (update world platforms input player).coyoteCounter
        = (if jumpFires world platforms input player = true then 0
           else if landsInFrame world platforms input player = true
             then player.coyoteTimeFrames
           else if player.coyoteCounter > 0 then player.coyoteCounter - 1
           else player.coyoteCounter) ∧
      (update world platforms input player).jumpBufferCounter
        = (if jumpFires world platforms input player = true then 0
           else if player.jumpBufferCounter > 0 then player.jumpBufferCounter - 1
           else player.jumpBufferCounter) ∧
      (update world platforms input player).onGround
        = (landsInFrame world platforms input player &&
            !jumpFires world platforms input player) ∧
      (update world platforms input player).coyoteTimeFrames = player.coyoteTimeFrames ∧
      (update world platforms input player).jumpBufferFrames = player.jumpBufferFrames ∧
      (update world platforms input player).jumpStrength = player.jumpStrength := by
  obtain ⟨t1, t2, t3, t4, t5, t6⟩ := afterVertical_timers world platforms input player
  obtain ⟨r1, r2, r3, r4, r5, r6, -⟩ := respawn_sameTimers world
    (tryJump (afterVertical world platforms input player))
  obtain ⟨j1, j2, j3, -⟩ := tryJump_fields (afterVertical world platforms input player)
  have hj : jumpCondition (afterVertical world platforms input player)
      = jumpFires world platforms input player := rfl
  refine ⟨?_, ?_, ?_, ?_, ?_, ?_, ?_⟩
  · unfold jumpFires jumpCondition
    simp only [t1, t2, t3]
  · rw [update_eq, r3, j1, hj, t2]
  · rw [update_eq, r5, j2, hj, t3]
  · rw [update_eq, r1, j3, hj, t1]
  · rw [update_eq, r2, (tryJump_sameKinematics _).2.2.2.2.1, t4]
  · rw [update_eq, r4, (tryJump_sameKinematics _).2.2.2.2.2.1, t5]
  · rw [update_eq, r6, (tryJump_sameKinematics _).2.2.2.2.2.2, t6]

/-- What one `update` leaves in `vy`: 0 after a respawn, `-jumpStrength` after a
jump, and otherwise what the vertical pass left. -/
theorem update_vy (world : World) (platforms : List Platform) (input : Input)
    (player : Player) :
    (update world platforms input player).vy
      = (if respawnsInFrame world platforms input player = true then 0
         else if jumpFires world platforms input player = true then -player.jumpStrength
         else (afterVertical world platforms input player).vy) := by
  obtain ⟨-, -, -, -, -, t6⟩ := afterVertical_timers world platforms input player
  obtain ⟨-, -, -, j4⟩ := tryJump_fields (afterVertical world platforms input player)
  have hj : jumpCondition (afterVertical world platforms input player)
      = jumpFires world platforms input player := rfl
  rw [update_eq]
  unfold respawn respawnsInFrame
  by_cases hr : (tryJump (afterVertical world platforms input player)).y > world.height + 200
  · simp [hr]
  · simp only [hr, if_false, decide_False, Bool.false_eq_true]
    rw [j4, hj, t6]

theorem afterVertical_vy_of_airborne (world : World) (platforms : List Platform)
    (input : Input) (player : Player)
    (hair : landsInFrame world platforms input player = false)
    (hvy : 0 ≤ player.vy + world.gravity) :
    (afterVertical world platforms input player).vy = player.vy + world.gravity := by
  obtain ⟨-, hb⟩ := beforeVertical_vertical world platforms input player
  unfold landsInFrame at hair
  unfold afterVertical resolveVerticalCollisions
  rw [(settleGround_kinematics _).2.2.2.1]
  cases hf : firstOverlap platforms (beforeVertical world platforms input player) with
  | none => rw [verticalLoop_of_no_overlap _ _ hf, hb]
  | some p =>
    rw [verticalLoop_of_firstOverlap _ _ p hf] at hair ⊢
    obtain ⟨-, h2, -, -, -, -, h7⟩ := verticalStep_snap
      (beforeVertical world platforms input player) false p (firstOverlap_overlaps _ _ _ hf)
    rw [h2]
    rw [h7, hb] at hair
    simp only [Bool.or_false, decide_eq_false_iff_not, not_lt] at hair
    linarith

/-- One frame without a downward collision and without a pending jump request:
the request counter stays 0, the coyote counter loses one frame, and a player
that is not rising stays so. -/
theorem idle_airborne_frame (world : World) (platforms : List Platform) (input : Input)
    (player : Player) (hjb : player.jumpBufferCounter = 0) (hcc : 0 ≤ player.coyoteCounter)
    (hvy : 0 ≤ player.vy) (hg : 0 ≤ world.gravity)
    (hair : landsInFrame world platforms input player = false) :
    (update world platforms input player).jumpBufferCounter = 0 ∧
      (update world platforms input player).coyoteCounter = max (player.coyoteCounter - 1) 0 ∧
      0 ≤ (update world platforms input player).vy := by
  obtain ⟨c1, c2, c3, -⟩ := update_counters world platforms input player
  have hfire : jumpFires world platforms input player = false := by
    rw [c1, hjb]
    simp
  refine ⟨?_, ?_, ?_⟩
  · rw [c3, hfire, hjb]
    simp
  · rw [c2, hfire, hair]
    simp only [Bool.false_eq_true, if_false]
    split <;> omega
  · rw [update_vy, hfire,
      afterVertical_vy_of_airborne world platforms input player hair (by linarith)]
    simp only [Bool.false_eq_true, if_false]
    split
    · exact le_refl _
    · linarith

theorem idle_airborne_run (world : World) (platforms : List Platform) (inputs : List Input)
    (player : Player) (hjb : player.jumpBufferCounter = 0) (hcc : 0 ≤ player.coyoteCounter)
    (hvy : 0 ≤ player.vy) (hg : 0 ≤ world.gravity)
    (hair : airborneRun world platforms inputs player) :
    (run world platforms inputs player).jumpBufferCounter = 0 ∧
      (run world platforms inputs player).coyoteCounter
        = max (player.coyoteCounter - inputs.length) 0 ∧
      0 ≤ (run world platforms inputs player).vy := by
  induction inputs generalizing player with
  | nil =>
    refine ⟨hjb, ?_, hvy⟩
    simp only [run, List.length_nil, Nat.cast_zero, sub_zero]
    omega
  | cons input rest ih =>
    obtain ⟨h1, h2, h3⟩ := idle_airborne_frame world platforms input player hjb hcc hvy hg
      hair.1
    obtain ⟨i1, i2, i3⟩ := ih (update world platforms input player) h1
      (by rw [h2]; omega) h3 hair.2
    refine ⟨i1, ?_, i3⟩
    show (run world platforms rest (update world platforms input player)).coyoteCounter = _
    rw [i2, h2]
    simp only [List.length_cons, Nat.cast_add, Nat.cast_one]
    omega

theorem run_tunables (world : World) (platforms : List Platform) (inputs : List Input)
    (player : Player) :
    (run world platforms inputs player).coyoteTimeFrames = player.coyoteTimeFrames ∧
      (run world platforms inputs player).jumpBufferFrames = player.jumpBufferFrames ∧
      (run world platforms inputs player).jumpStrength = player.jumpStrength := by
  induction inputs generalizing player with
  | nil => exact ⟨rfl, rfl, rfl⟩
  | cons input rest ih =>
    obtain ⟨-, -, -, -, c5, c6, c7⟩ := update_counters world platforms input player
    obtain ⟨i1, i2, i3⟩ := ih (update world platforms input player)
    exact ⟨i1.trans c5, i2.trans c6, i3.trans c7⟩

theorem requestJump_eq_keydown (input : Input) (player : Player) :
    requestJump player = (keydown " " { input := input, player := player }).player := by
  simp [requestJump, keydown, leftKeys, rightKeys, jumpKeys]

/-! ## Coyote time -/

/-- C1 (as the code has it). Start with `coyoteCounter = 6`, no pending request
and a player that is not rising, and run `update` for frames none of which
resolves a downward collision; `inputs` are the frames before the request, so the
request is made immediately before frame `inputs.length + 1`.  That frame fires
the jump exactly when `inputs.length + 1 ≤ 5`: the vertical pass of the frame
decrements the counter before `tryJump` reads it, so a request before the 5th
frame still jumps and a request before the 6th does not.  After that frame `vy`
is `-jumpStrength` if the jump fired and the previous `vy` plus gravity if not
(and 0 if the frame ended in the respawn reset). -/
theorem coyote_window (world : World) (platforms : List Platform) (inputs : List Input)
    (input : Input) (player : Player)
    (hcc : player.coyoteCounter = 6) (hjb : player.jumpBufferCounter = 0)
    (hjbf : 0 < player.jumpBufferFrames) (hvy : 0 ≤ player.vy) (hg : 0 ≤ world.gravity)
    (hair : airborneRun world platforms inputs player)
    (hlast : landsInFrame world platforms input
      (requestJump (run world platforms inputs player)) = false) :
    jumpFires world platforms input (requestJump (run world platforms inputs player))
        = decide (inputs.length + 1 ≤ 5) ∧
      (update world platforms input (requestJump (run world platforms inputs player))).vy
        = (if respawnsInFrame world platforms input
              (requestJump (run world platforms inputs player)) = true then 0
           else if inputs.length + 1 ≤ 5 then -player.jumpStrength
           else (run world platforms inputs player).vy + world.gravity) := by
  obtain ⟨-, r2, r3⟩ := idle_airborne_run world platforms inputs player hjb
    (by rw [hcc]; norm_num) hvy hg hair
  obtain ⟨-, t2, t3⟩ := run_tunables world platforms inputs player
  obtain ⟨c1, -⟩ := update_counters world platforms input
    (requestJump (run world platforms inputs player))
  have hfire : jumpFires world platforms input
      (requestJump (run world platforms inputs player)) = decide (inputs.length + 1 ≤ 5) := by
    rw [c1, hlast]
    have hb : decide ((requestJump (run world platforms inputs player)).jumpBufferCounter > 0)
        = true := by
      simp only [requestJump, t2]
      exact decide_eq_true hjbf
    have hc : (requestJump (run world platforms inputs player)).coyoteCounter
        = max (6 - (inputs.length : ℤ)) 0 := by
      simp only [requestJump, r2, hcc]
    rw [hb, hc]
    simp only [Bool.false_eq_true, if_false, Bool.false_or, Bool.true_and]
    rw [decide_eq_decide]
    split <;> omega
  refine ⟨hfire, ?_⟩
  rw [update_vy, hfire]
  by_cases hn : inputs.length + 1 ≤ 5
  · simp [hn, requestJump, t3]
  · have hv : (afterVertical world platforms input
        (requestJump (run world platforms inputs player))).vy
          = (run world platforms inputs player).vy + world.gravity :=
      afterVertical_vy_of_airborne world platforms input _ hlast
        (by simp only [requestJump]; linarith)
    simp [hn, hv]

/-- The coyote window on the level of the source: the player runs off the
ledge, and the jump requested before the 5th airborne frame fires. -/
theorem coyote_window_witness :
    airborneRun (worldOf 960 540) (levelPlatforms (worldOf 960 540))
        (List.replicate 4 holdRight) ledgeWalker ∧
      jumpFires (worldOf 960 540) (levelPlatforms (worldOf 960 540)) holdRight
        (requestJump (run (worldOf 960 540) (levelPlatforms (worldOf 960 540))
          (List.replicate 4 holdRight) ledgeWalker)) = true :=
  ⟨by decide!,
    (coyote_window (worldOf 960 540) (levelPlatforms (worldOf 960 540))
      (List.replicate 4 holdRight) holdRight ledgeWalker (by decide!) (by decide!)
      (by decide!) (by decide!) (by decide!) (by decide!) (by decide!)).1⟩

/-- C1 fails as stated: the just-grounded player (`onGround = true`,
`coyoteCounter = coyoteTimeFrames = 6`, `jumpBufferCounter = 0`) runs off the
ledge of the source's level; five frames resolve no downward collision, the
request is made immediately before the 6th such frame, and that frame fires no
jump: it leaves `vy = 3.6` (gravity only), not `-12`, the coyote counter having
reached 0 in the frame's vertical pass. -/
theorem coyote_sixth_frame_counterexample :
    ledgeWalker.onGround = true ∧ ledgeWalker.coyoteCounter = 6 ∧
      ledgeWalker.coyoteTimeFrames = 6 ∧ ledgeWalker.jumpBufferCounter = 0 ∧
      airborneRun (worldOf 960 540) (levelPlatforms (worldOf 960 540))
        (List.replicate 5 holdRight) ledgeWalker ∧
      (requestJump (run (worldOf 960 540) (levelPlatforms (worldOf 960 540))
        (List.replicate 5 holdRight) ledgeWalker)).jumpBufferCounter = 6 ∧
      landsInFrame (worldOf 960 540) (levelPlatforms (worldOf 960 540)) holdRight
        (requestJump (run (worldOf 960 540) (levelPlatforms (worldOf 960 540))
          (List.replicate 5 holdRight) ledgeWalker)) = false ∧
      jumpFires (worldOf 960 540) (levelPlatforms (worldOf 960 540)) holdRight
        (requestJump (run (worldOf 960 540) (levelPlatforms (worldOf 960 540))
          (List.replicate 5 holdRight) ledgeWalker)) = false ∧
      (update (worldOf 960 540) (levelPlatforms (worldOf 960 540)) holdRight
        (requestJump (run (worldOf 960 540) (levelPlatforms (worldOf 960 540))
          (List.replicate 5 holdRight) ledgeWalker))).vy = 36 / 10 ∧
      (update (worldOf 960 540) (levelPlatforms (worldOf 960 540)) holdRight
        (requestJump (run (worldOf 960 540) (levelPlatforms (worldOf 960 540))
          (List.replicate 5 holdRight) ledgeWalker))).vy ≠ -12 := by
  decide!

/-! ## Jump buffering -/

theorem buffered_airborne_frame (world : World) (platforms : List Platform) (input : Input)
    (player : Player) (hcc : player.coyoteCounter = 0) (hjb : 0 ≤ player.jumpBufferCounter)
    (hair : landsInFrame world platforms input player = false) :
    (update world platforms input player).coyoteCounter = 0 ∧
      (update world platforms input player).jumpBufferCounter
        = max (player.jumpBufferCounter - 1) 0 := by
  obtain ⟨c1, c2, c3, -⟩ := update_counters world platforms input player
  have hfire : jumpFires world platforms input player = false := by
    rw [c1, hair, hcc]
    simp
  refine ⟨?_, ?_⟩
  · rw [c2, hfire, hair, hcc]
    simp
  · rw [c3, hfire]
    simp only [Bool.false_eq_true, if_false]
    split <;> omega

theorem buffered_airborne_run (world : World) (platforms : List Platform)
    (inputs : List Input) (player : Player) (hcc : player.coyoteCounter = 0)
    (hjb : 0 ≤ player.jumpBufferCounter)
    (hair : airborneRun world platforms inputs player) :
    (run world platforms inputs player).coyoteCounter = 0 ∧
      (run world platforms inputs player).jumpBufferCounter
        = max (player.jumpBufferCounter - inputs.length) 0 := by
  induction inputs generalizing player with
  | nil =>
    refine ⟨hcc, ?_⟩
    simp only [run, List.length_nil, Nat.cast_zero, sub_zero]
    omega
  | cons input rest ih =>
    obtain ⟨h1, h2⟩ := buffered_airborne_frame world platforms input player hcc hjb hair.1
    obtain ⟨i1, i2⟩ := ih (update world platforms input player) h1
      (by rw [h2]; omega) hair.2
    refine ⟨i1, ?_⟩
    show (run world platforms rest (update world platforms input player)).jumpBufferCounter = _
    rw [i2, h2]
    simp only [List.length_cons, Nat.cast_add, Nat.cast_one]
    omega

/-- C5 (as the code has it). Jump buffering: the request is made (the buffer set
to `jumpBufferFrames = 6`) while `coyoteCounter = 0`, then `inputs.length` frames
resolve no downward collision, and the next frame resolves one.  That landing
frame fires the jump if and only if `inputs.length ≤ 5`, and then it leaves
`jumpBufferCounter = 0`, `coyoteCounter = 0`, `onGround = false` and
`vy = -jumpStrength`, except that `vy = 0` when the same `update` ends in the
respawn reset (the landing position lies below `world.height + 200`). -/
theorem jump_buffering (world : World) (platforms : List Platform) (inputs : List Input)
    (input : Input) (player : Player)
    (hcc : player.coyoteCounter = 0) (hjbf : player.jumpBufferFrames = 6)
    (hair : airborneRun world platforms inputs (requestJump player))
    (hland : landsInFrame world platforms input
      (run world platforms inputs (requestJump player)) = true) :
    jumpFires world platforms input (run world platforms inputs (requestJump player))
        = decide (inputs.length ≤ 5) ∧
      (inputs.length ≤ 5 →
        (update world platforms input
            (run world platforms inputs (requestJump player))).jumpBufferCounter = 0 ∧
          (update world platforms input
            (run world platforms inputs (requestJump player))).coyoteCounter = 0 ∧
          (update world platforms input
            (run world platforms inputs (requestJump player))).onGround = false ∧
          (update world platforms input
            (run world platforms inputs (requestJump player))).vy
            = (if respawnsInFrame world platforms input
                  (run world platforms inputs (requestJump player)) = true then 0
               else -player.jumpStrength)) := by
  have hb0 : (requestJump player).jumpBufferCounter = 6 := hjbf
  obtain ⟨-, r2⟩ := buffered_airborne_run world platforms inputs (requestJump player) hcc
    (by rw [hb0]; norm_num) hair
  rw [hb0] at r2
  obtain ⟨-, -, t3⟩ := run_tunables world platforms inputs (requestJump player)
  obtain ⟨c1, c2, c3, c4, -⟩ := update_counters world platforms input
    (run world platforms inputs (requestJump player))
  have hfire : jumpFires world platforms input
      (run world platforms inputs (requestJump player)) = decide (inputs.length ≤ 5) := by
    rw [c1, hland, r2]
    simp only [Bool.true_or, Bool.and_true]
    rw [decide_eq_decide]
    omega
  refine ⟨hfire, fun hk => ?_⟩
  have hfire2 : jumpFires world platforms input
      (run world platforms inputs (requestJump player)) = true := by
    rw [hfire]
    exact decide_eq_true hk
  refine ⟨?_, ?_, ?_, ?_⟩
  · rw [c3, hfire2]
    simp
  · rw [c2, hfire2]
    simp
  · rw [c4, hfire2]
    simp
  · rw [update_vy, hfire2, t3]
    simp [requestJump]

/-- Jump buffering on the level of the source: the request is made three frames
before the player lands on the ground platform, and the landing frame jumps. -/
theorem jump_buffering_witness :
    airborneRun (worldOf 960 540) (levelPlatforms (worldOf 960 540))
        (List.replicate 3 input0) (requestJump groundFaller) ∧
      landsInFrame (worldOf 960 540) (levelPlatforms (worldOf 960 540)) input0
        (run (worldOf 960 540) (levelPlatforms (worldOf 960 540))
          (List.replicate 3 input0) (requestJump groundFaller)) = true ∧
      (update (worldOf 960 540) (levelPlatforms (worldOf 960 540)) input0
        (run (worldOf 960 540) (levelPlatforms (worldOf 960 540))
          (List.replicate 3 input0) (requestJump groundFaller))).vy = -12 :=
  ⟨by decide!, by decide!,
    ((jump_buffering (worldOf 960 540) (levelPlatforms (worldOf 960 540))
      (List.replicate 3 input0) input0 groundFaller (by decide!) (by decide!)
      (by decide!) (by decide!)).2 (by decide)).2.2.2.trans (by decide!)⟩

/-- C5 fails as stated: the request is made while the player is airborne and
ineligible, three frames resolve no downward collision, and the fourth lands the
player on a slab whose top is at `y = 800`; that frame fires the jump, but the
landing position `y = 752` is below `world.height + 200 = 740`, so the respawn
reset of the same `update` leaves `vy = 0`, not `-12`. -/
theorem jump_buffering_counterexample :
    deepFaller.onGround = false ∧ deepFaller.coyoteCounter = 0 ∧
      (requestJump deepFaller).jumpBufferCounter = 6 ∧
      airborneRun (worldOf 960 540) [deepSlab] (List.replicate 3 input0)
        (requestJump deepFaller) ∧
      landsInFrame (worldOf 960 540) [deepSlab] input0
        (run (worldOf 960 540) [deepSlab] (List.replicate 3 input0)
          (requestJump deepFaller)) = true ∧
      jumpFires (worldOf 960 540) [deepSlab] input0
        (run (worldOf 960 540) [deepSlab] (List.replicate 3 input0)
          (requestJump deepFaller)) = true ∧
      (afterVertical (worldOf 960 540) [deepSlab] input0
        (run (worldOf 960 540) [deepSlab] (List.replicate 3 input0)
          (requestJump deepFaller))).y = 752 ∧
      (update (worldOf 960 540) [deepSlab] input0
        (run (worldOf 960 540) [deepSlab] (List.replicate 3 input0)
          (requestJump deepFaller))).vy = 0 ∧
      (update (worldOf 960 540) [deepSlab] input0
        (run (worldOf 960 540) [deepSlab] (List.replicate 3 input0)
          (requestJump deepFaller))).vy ≠ -12 := by
  decide!

/-! ## The ground flag -/

theorem verticalLoop_grounded (platforms : List Platform) (player : Player) :
    (verticalLoop platforms player).2
      = ((firstOverlap platforms player).isSome && decide (player.vy > 0)) := by
  cases hf : firstOverlap platforms player with
  | none => rw [verticalLoop_of_no_overlap _ _ hf]; rfl
  | some p =>
    rw [verticalLoop_of_firstOverlap _ _ p hf]
    obtain ⟨-, -, -, -, -, -, h7⟩ := verticalStep_snap player false p
      (firstOverlap_overlaps _ _ _ hf)
    rw [h7]
    simp

/-- C11. `onGround` is not sticky: after `update` it is true if and only if the
frame's vertical pass resolved a downward collision (a platform overlapped the
player's rectangle on entering the pass while `vy > 0`) and `tryJump` consumed no
jump in the frame; so without a downward collision in the frame it is false
whatever it was before. -/
theorem onGround_not_sticky (world : World) (platforms : List Platform) (input : Input)
    (player : Player) :
    (update world platforms input player).onGround
        = (landsInFrame world platforms input player &&
            !jumpFires world platforms input player) ∧
      landsInFrame world platforms input player
        = ((firstOverlap platforms (beforeVertical world platforms input player)).isSome &&
            decide ((beforeVertical world platforms input player).vy > 0)) ∧
      (landsInFrame world platforms input player = true ∨
        (update world platforms input player).onGround = false) ∧
      ((update world platforms input player).onGround = true ↔
        (landsInFrame world platforms input player = true ∧
          jumpFires world platforms input player = false)) := by
  obtain ⟨-, -, -, c4, -⟩ := update_counters world platforms input player
  refine ⟨c4, verticalLoop_grounded platforms _, ?_, ?_⟩
  · rw [c4]
    cases landsInFrame world platforms input player
    · exact Or.inr rfl
    · exact Or.inl rfl
  · rw [c4]
    cases landsInFrame world platforms input player <;>
      cases jumpFires world platforms input player <;> simp

/-! ## Geometry helpers -/

/-- C12. For `lo ≤ hi`, `clamp v lo hi` lies in `[lo, hi]`, equals `v` when `v`
already does, is `lo` when `v < lo` and `hi` when `v > hi`, and is idempotent. -/
theorem clamp_property (v lo hi : ℚ) (h : lo ≤ hi) :
    (lo ≤ clamp v lo hi ∧ clamp v lo hi ≤ hi) ∧
      (lo ≤ v → v ≤ hi → clamp v lo hi = v) ∧
      (v < lo → clamp v lo hi = lo) ∧
      (hi < v → clamp v lo hi = hi) ∧
      clamp (clamp v lo hi) lo hi = clamp v lo hi := by
  have hin : ∀ u : ℚ, lo ≤ u → u ≤ hi → clamp u lo hi = u := by
    intro u h1 h2
    unfold clamp
    rw [min_eq_right h2, max_eq_right h1]
  have hb : lo ≤ clamp v lo hi ∧ clamp v lo hi ≤ hi :=
    ⟨le_max_left _ _, max_le h (min_le_left _ _)⟩
  refine ⟨hb, hin v, ?_, ?_, hin _ hb.1 hb.2⟩
  · intro hv
    unfold clamp
    rw [min_eq_right (le_trans (le_of_lt hv) h), max_eq_left (le_of_lt hv)]
  · intro hv
    unfold clamp
    rw [min_eq_left (le_of_lt hv), max_eq_right h]

/-- The clamp of line 136 at the source's bounds: 5 is cut to 4.2. -/
theorem clamp_property_witness :
    (-(42 / 10) : ℚ) ≤ 42 / 10 ∧ clamp 5 (-(42 / 10)) (42 / 10) = 42 / 10 :=
  ⟨by norm_num,
    (clamp_property 5 (-(42 / 10)) (42 / 10) (by norm_num)).2.2.2.1 (by norm_num)⟩

/-- C13. `rectsOverlap` is symmetric in its two rectangles, and it is false for
rectangles that only touch: when `A.x + A.width = B.x`, and likewise when
`A.y + A.height = B.y`. -/
theorem rectsOverlap_symm_open (ax ay aw ah bx «by» bw bh : ℚ) :
    rectsOverlap ax ay aw ah bx «by» bw bh = rectsOverlap bx «by» bw bh ax ay aw ah ∧
      (ax + aw = bx → rectsOverlap ax ay aw ah bx «by» bw bh = false) ∧
      (ay + ah = «by» → rectsOverlap ax ay aw ah bx «by» bw bh = false) := by
  refine ⟨?_, ?_, ?_⟩
  · unfold rectsOverlap
    rw [Bool.eq_iff_iff]
    simp only [Bool.and_eq_true, decide_eq_true_eq, gt_iff_lt]
    constructor
    · rintro ⟨⟨⟨h1, h2⟩, h3⟩, h4⟩
      exact ⟨⟨⟨h2, h1⟩, h4⟩, h3⟩
    · rintro ⟨⟨⟨h1, h2⟩, h3⟩, h4⟩
      exact ⟨⟨⟨h2, h1⟩, h4⟩, h3⟩
  · intro h
    unfold rectsOverlap
    simp [h]
  · intro h
    unfold rectsOverlap
    simp [h]

/-- Touching edges at the source's sizes: the player's right edge `80 + 32` on a
platform's left edge `112`. -/
theorem rectsOverlap_symm_open_witness :
    (80 : ℚ) + 32 = 112 ∧ rectsOverlap 80 0 32 48 112 0 120 20 = false :=
  ⟨by norm_num, (rectsOverlap_symm_open 80 0 32 48 112 0 120 20).2.1 (by norm_num)⟩

/-! ## The respawn test -/

/-- C14. In `update` the respawn reset is taken if and only if `y` after the
vertical integration and the vertical pass is strictly greater than
`world.height + 200` (so not at `world.height + 200` exactly); it writes only
`x = 80`, `y = 0`, `vx = 0`, `vy = 0`, and `onGround`, `coyoteCounter` and
`jumpBufferCounter` keep the values `tryJump` left in that frame. -/
theorem respawn_condition_and_frame (world : World) (platforms : List Platform)
    (input : Input) (player : Player) :
    (respawnsInFrame world platforms input player = true ↔
        (afterVertical world platforms input player).y > world.height + 200) ∧
      update world platforms input player
        = (if (afterVertical world platforms input player).y > world.height + 200 then
            { tryJump (afterVertical world platforms input player) with
              x := 80, y := 0, vx := 0, vy := 0 }
           else tryJump (afterVertical world platforms input player)) ∧
      ((afterVertical world platforms input player).y = world.height + 200 →
        update world platforms input player
          = tryJump (afterVertical world platforms input player)) ∧
      (update world platforms input player).onGround
        = (tryJump (afterVertical world platforms input player)).onGround ∧
      (update world platforms input player).coyoteCounter
        = (tryJump (afterVertical world platforms input player)).coyoteCounter ∧
      (update world platforms input player).jumpBufferCounter
        = (tryJump (afterVertical world platforms input player)).jumpBufferCounter := by
  have hy := (tryJump_sameKinematics (afterVertical world platforms input player)).2.1
  obtain ⟨r1, -, r3, -, r5, -⟩ := respawn_sameTimers world
    (tryJump (afterVertical world platforms input player))
  have hupd : update world platforms input player
      = (if (afterVertical world platforms input player).y > world.height + 200 then
          { tryJump (afterVertical world platforms input player) with
            x := 80, y := 0, vx := 0, vy := 0 }
         else tryJump (afterVertical world platforms input player)) := by
    rw [update_eq]
    unfold respawn
    rw [hy]
  refine ⟨?_, hupd, ?_, ?_, ?_, ?_⟩
  · unfold respawnsInFrame
    rw [hy, decide_eq_true_iff]
  · intro h
    rw [hupd, if_neg (by rw [h]; exact lt_irrefl _)]
  · rw [update_eq, r1]
  · rw [update_eq, r3]
  · rw [update_eq, r5]

/-- The respawn test at the threshold: a player resting in mid-air at
`y = 740 - 0.6` with no platform ends the frame at exactly
`world.height + 200 = 740` and is not reset. -/
theorem respawn_condition_and_frame_witness :
    (afterVertical (worldOf 960 540) [] input0 { player0 with y := 740 - 6 / 10 }).y
        = (worldOf 960 540).height + 200 ∧
      (update (worldOf 960 540) [] input0 { player0 with y := 740 - 6 / 10 }).y = 740 :=
  ⟨by decide!,
    (congrArg Player.y ((respawn_condition_and_frame (worldOf 960 540) [] input0
      { player0 with y := 740 - 6 / 10 }).2.2.1 (by decide!))).trans (by decide!)⟩

/-! ## Opposite inputs -/

theorem horizontalIntent_of_no_direction (input : Input) (player : Player)
    (h : input.left = input.right) :
    horizontalIntent input player
      = { player with
          vx := clamp (player.vx * (if player.onGround = true then 75 / 100 else 92 / 100))
            (-player.maxSpeedX) player.maxSpeedX } := by
  unfold horizontalIntent
  rw [h]
  cases input.right <;> simp

theorem update_congr_intent (world : World) (platforms : List Platform) (a b : Input)
    (player : Player) (h : horizontalIntent a player = horizontalIntent b player) :
    update world platforms a player = update world platforms b player := by
  unfold update
  rw [h]

/-- C15. Opposite inputs cancel: `update` with both direction keys held yields
exactly the state `update` yields with neither held; in both cases no
acceleration is applied and `vx` is multiplied by the friction coefficient (0.75
if `onGround` at the start of the frame, 0.92 otherwise) before the clamp. -/
theorem opposite_inputs_cancel (world : World) (platforms : List Platform)
    (player : Player) (jump jump' : Bool) :
    update world platforms { left := true, right := true, jump := jump } player
        = update world platforms { left := false, right := false, jump := jump' } player ∧
      (horizontalIntent { left := true, right := true, jump := jump } player).vx
        = clamp (player.vx * (if player.onGround = true then 75 / 100 else 92 / 100))
            (-player.maxSpeedX) player.maxSpeedX ∧
      (horizontalIntent { left := false, right := false, jump := jump' } player).vx
        = clamp (player.vx * (if player.onGround = true then 75 / 100 else 92 / 100))
            (-player.maxSpeedX) player.maxSpeedX := by
  have h1 := horizontalIntent_of_no_direction
    { left := true, right := true, jump := jump } player rfl
  have h2 := horizontalIntent_of_no_direction
    { left := false, right := false, jump := jump' } player rfl
  refine ⟨update_congr_intent world platforms _ _ player (h1.trans h2.symm), ?_, ?_⟩
  · rw [h1]
  · rw [h2]

/-! ## The key handlers -/

theorem keydown_player (key : String) (g : Game) :
    (keydown key g).player
      = (if key ∈ jumpKeys then requestJump g.player else g.player) := by
  unfold keydown requestJump
  by_cases hl : key ∈ leftKeys <;> by_cases hr : key ∈ rightKeys <;>
    by_cases hj : key ∈ jumpKeys <;> simp [hl, hr, hj]

/-- C16 (as the code has it). The `keydown` handler sets `jumpBufferCounter` to
`jumpBufferFrames` and `input.jump = true` on every `keydown` event of a jump
key, whether or not the key is already held: it neither reads `input.jump` nor
tells an auto-repeat event from a fresh press.  A `keydown` of any other key
leaves the player unchanged.  The `keyup` handler never changes the player, and
sets `input.jump = false` for a jump key. -/
theorem keydown_refills_on_every_event (key : String) (g : Game) :
    (key ∈ jumpKeys →
        (keydown key g).player.jumpBufferCounter = g.player.jumpBufferFrames ∧
          (keydown key g).player = requestJump g.player ∧
          (keydown key g).input.jump = true) ∧
      (key ∉ jumpKeys → (keydown key g).player = g.player) ∧
      (keyup key g).player = g.player ∧
      (key ∈ jumpKeys → (keyup key g).input.jump = false) := by
  refine ⟨?_, ?_, keyup_player key g, ?_⟩
  · intro hj
    have hp := keydown_player key g
    rw [if_pos hj] at hp
    refine ⟨by rw [hp]; rfl, hp, ?_⟩
    unfold keydown
    simp [hj]
  · intro hj
    have hp := keydown_player key g
    rw [if_neg hj] at hp
    exact hp
  · intro hj
    unfold keyup
    simp [hj]

/-- An auto-repeat `keydown` of the space bar, arriving while `input.jump` is
already true, sets the buffer to 6 again. -/
theorem keydown_refills_on_every_event_witness :
    " " ∈ jumpKeys ∧ heldJumpGame.input.jump = true ∧
      (keydown " " heldJumpGame).player.jumpBufferCounter = 6 :=
  ⟨by decide, by decide!,
    ((keydown_refills_on_every_event " " heldJumpGame).1 (by decide)).1.trans (by decide!)⟩

/-- C16 fails as stated: the space bar goes down in the start state, one frame
is played (the airborne player cannot jump, so the buffer ticks from 6 to 5), and
a further `keydown` of the space bar arrives with no `keyup` in between
(`input.jump` is still true); it does not leave `jumpBufferCounter` unchanged but
sets it from 5 back to 6. -/
theorem keydown_repeat_counterexample :
    Reachable (worldOf 960 540) (levelPlatforms (worldOf 960 540)) heldJumpGame ∧
      heldJumpGame.input.jump = true ∧
      heldJumpGame.player.jumpBufferCounter = 5 ∧
      (keydown " " heldJumpGame).player.jumpBufferCounter = 6 ∧
      (keydown " " heldJumpGame).player.jumpBufferCounter
        ≠ heldJumpGame.player.jumpBufferCounter :=
  ⟨Reachable.frame _ (Reachable.keydown " " _ Reachable.start),
    by decide!, by decide!, by decide!, by decide!⟩

/-! ## Head bumps -/

theorem verticalStep_grounded (s : Player × Bool) (p : Platform) :
    (verticalStep s p).2 = true ↔ s.2 = true ∨ (overlaps s.1 p = true ∧ s.1.vy > 0) := by
  unfold verticalStep
  by_cases ho : overlaps s.1 p = true
  · by_cases hv : s.1.vy > 0
    · simp [ho, hv]
    · simp only [ho, if_true, hv, if_false, and_false, or_false]
      split <;> rfl
  · simp [ho]

theorem verticalFold_grounded (platforms : List Platform) (s : Player × Bool) :
    (platforms.foldl verticalStep s).2 = true ↔
      s.2 = true ∨ ∃ v ∈ verticalVisits platforms s, overlaps v.1 v.2 = true ∧ v.1.vy > 0 := by
  induction platforms generalizing s with
  | nil => simp [verticalVisits]
  | cons p rest ih =>
    rw [List.foldl_cons, ih (verticalStep s p), verticalStep_grounded]
    simp only [verticalVisits, List.mem_cons, exists_eq_or_imp]
    tauto

theorem verticalLoop_grounded_iff_metFalling (platforms : List Platform) (player : Player) :
    (verticalLoop platforms player).2 = true ↔ metFalling platforms player := by
  unfold verticalLoop metFalling
  rw [verticalFold_grounded]
  simp

theorem resolveVerticalCollisions_ground (platforms : List Platform) (player : Player) :
    (resolveVerticalCollisions platforms player).onGround = (verticalLoop platforms player).2 ∧
      (resolveVerticalCollisions platforms player).coyoteCounter
        = (if (verticalLoop platforms player).2 = true then player.coyoteTimeFrames
           else if player.coyoteCounter > 0 then player.coyoteCounter - 1
           else player.coyoteCounter) := by
  obtain ⟨-, h2, h3, -⟩ := verticalLoop_sameTimers platforms player
  unfold resolveVerticalCollisions settleGround
  cases hl : (verticalLoop platforms player).2
  · simp only [Bool.false_eq_true, if_false, h3]
    split <;> simp [h3]
  · simp [h2]

/-- C18. Head bumps do not ground the player.  For a player whose coyote counter
is not negative and any platform list: if every overlap met during the loop of
`resolveVerticalCollisions` is met with `vy ≤ 0`, then afterwards
`onGround = false` and `coyoteCounter` is its previous value minus 1 if that was
positive and 0 otherwise (it is not reset to `coyoteTimeFrames`); if some overlap
is met with `vy > 0`, afterwards `onGround = true` and
`coyoteCounter = coyoteTimeFrames`.  An overlap is met with `vy > 0` exactly when
some platform overlaps on entering the pass and `vy > 0` then. -/
theorem head_bump_does_not_ground (platforms : List Platform) (player : Player)
    (hcc : 0 ≤ player.coyoteCounter) :
    ((∀ v ∈ verticalVisits platforms (player, false),
          overlaps v.1 v.2 = true → v.1.vy ≤ 0) →
        (resolveVerticalCollisions platforms player).onGround = false ∧
          (resolveVerticalCollisions platforms player).coyoteCounter
            = (if player.coyoteCounter > 0 then player.coyoteCounter - 1 else 0)) ∧
      ((∃ v ∈ verticalVisits platforms (player, false),
          overlaps v.1 v.2 = true ∧ v.1.vy > 0) →
        (resolveVerticalCollisions platforms player).onGround = true ∧
          (resolveVerticalCollisions platforms player).coyoteCounter
            = player.coyoteTimeFrames) ∧
      ((∃ v ∈ verticalVisits platforms (player, false),
          overlaps v.1 v.2 = true ∧ v.1.vy > 0) ↔
        ((firstOverlap platforms player).isSome = true ∧ player.vy > 0)) := by
  obtain ⟨g1, g2⟩ := resolveVerticalCollisions_ground platforms player
  have hmet := verticalLoop_grounded_iff_metFalling platforms player
  unfold metFalling at hmet
  refine ⟨?_, ?_, ?_⟩
  · intro hall
    have hno : (verticalLoop platforms player).2 = false := by
      rw [← Bool.not_eq_true, hmet]
      rintro ⟨v, hv, ho, hvy⟩
      exact absurd (hall v hv ho) (not_le.mpr hvy)
    rw [g1, g2, hno]
    refine ⟨rfl, ?_⟩
    simp only [Bool.false_eq_true, if_false]
    split
    · rfl
    · omega
  · intro hsome
    have hyes : (verticalLoop platforms player).2 = true := hmet.mpr hsome
    rw [g1, g2, hyes]
    exact ⟨rfl, by simp⟩
  · rw [← hmet, verticalLoop_grounded]
    simp

/-- A head bump: the player rising into the underside of `lowerSlab` is stopped
at `y = 120`, is not grounded, and its coyote counter goes from 3 to 2. -/
theorem head_bump_does_not_ground_witness :
    0 ≤ headBumper.coyoteCounter ∧ overlaps headBumper lowerSlab = true ∧
      (resolveVerticalCollisions [lowerSlab] headBumper).onGround = false ∧
      (resolveVerticalCollisions [lowerSlab] headBumper).coyoteCounter = 2 ∧
      (resolveVerticalCollisions [lowerSlab] headBumper).y = 120 :=
  ⟨by decide!, by decide!,
    ((head_bump_does_not_ground [lowerSlab] headBumper (by decide!)).1 (by decide!)).1,
    ((head_bump_does_not_ground [lowerSlab] headBumper (by decide!)).1
      (by decide!)).2.trans (by decide!),
    by decide!⟩

/-! ## No double jump -/

theorem keydown_coyoteCounter (key : String) (g : Game) :
    (keydown key g).player.coyoteCounter = g.player.coyoteCounter := by
  rw [keydown_player]
  split <;> rfl

theorem frame_of_spent (world : World) (platforms : List Platform) (input : Input)
    (player : Player) (hcc : player.coyoteCounter ≤ 0)
    (hair : landsInFrame world platforms input player = false) :
    jumpFires world platforms input player = false ∧
      (update world platforms input player).coyoteCounter ≤ 0 := by
  obtain ⟨c1, c2, -⟩ := update_counters world platforms input player
  have hfire : jumpFires world platforms input player = false := by
    rw [c1, hair]
    have h : ¬ (if player.coyoteCounter > 0 then player.coyoteCounter - 1
        else player.coyoteCounter) > 0 := by
      split <;> omega
    simp [h]
  refine ⟨hfire, ?_⟩
  rw [c2, hfire, hair]
  simp only [Bool.false_eq_true, if_false]
  split <;> omega

theorem frame_of_fired (world : World) (platforms : List Platform) (input : Input)
    (player : Player) (hfire : jumpFires world platforms input player = true) :
    (update world platforms input player).coyoteCounter = 0 := by
  obtain ⟨-, c2, -⟩ := update_counters world platforms input player
  rw [c2, hfire]
  simp

/-- Once the coyote counter is spent, no jump fires until a frame lands. -/
theorem jumpsIn_of_spent (world : World) (platforms : List Platform) (es : List Event)
    (g : Game) (hcc : g.player.coyoteCounter ≤ 0)
    (hair : landingsIn world platforms es g = 0) : jumpsIn world platforms es g = 0 := by
  induction es generalizing g with
  | nil => rfl
  | cons e rest ih =>
    cases e with
    | keydown key =>
      simp only [landingsIn, jumpsIn, step] at hair ⊢
      exact ih _ (by rw [keydown_coyoteCounter]; exact hcc) hair
    | keyup key =>
      simp only [landingsIn, jumpsIn, step] at hair ⊢
      exact ih _ (by rw [keyup_player]; exact hcc) hair
    | frame =>
      simp only [landingsIn, jumpsIn, step] at hair ⊢
      have hl : landsInFrame world platforms g.input g.player = false := by
        cases h : landsInFrame world platforms g.input g.player
        · rfl
        · rw [h] at hair
          simp at hair
      obtain ⟨h1, h2⟩ := frame_of_spent world platforms g.input g.player hcc hl
      rw [hl] at hair
      rw [h1]
      simp only [Bool.false_eq_true, if_false, zero_add] at hair ⊢
      exact ih _ h2 hair

theorem jumpsIn_le_one (world : World) (platforms : List Platform) (es : List Event)
    (g : Game) (hair : landingsIn world platforms es g = 0) :
    jumpsIn world platforms es g ≤ 1 := by
  induction es generalizing g with
  | nil => exact Nat.zero_le _
  | cons e rest ih =>
    cases e with
    | keydown key =>
      simp only [landingsIn, jumpsIn, step] at hair ⊢
      exact ih _ hair
    | keyup key =>
      simp only [landingsIn, jumpsIn, step] at hair ⊢
      exact ih _ hair
    | frame =>
      simp only [landingsIn, jumpsIn, step] at hair ⊢
      have hrest : landingsIn world platforms rest
          { g with player := update world platforms g.input g.player } = 0 := by omega
      cases hf : jumpFires world platforms g.input g.player
      · simp only [Bool.false_eq_true, if_false, zero_add]
        exact ih _ hrest
      · have h0 := jumpsIn_of_spent world platforms rest
          { g with player := update world platforms g.input g.player }
          (le_of_eq (frame_of_fired world platforms g.input g.player hf)) hrest
        simp only [if_true]
        omega

/-- C19. No double jump, over any sequence of frames and key events (which may
refill the jump buffer between frames as often as they like) from any state: if
no frame of the sequence resolves a downward collision, at most one of its frames
fires a jump; equivalently, after a frame in which a jump fires, a later frame
fires a jump only if some frame after the first jump, up to and including that
later frame, resolved a downward collision. -/
theorem no_double_jump (world : World) (platforms : List Platform) (es : List Event)
    (g : Game) :
    (landingsIn world platforms es g = 0 → jumpsIn world platforms es g ≤ 1) ∧
      (jumpFires world platforms g.input g.player = true →
        0 < jumpsIn world platforms es (step world platforms Event.frame g) →
        0 < landingsIn world platforms es (step world platforms Event.frame g)) := by
  refine ⟨jumpsIn_le_one world platforms es g, ?_⟩
  intro hf hj
  by_contra hl
  have h0 := jumpsIn_of_spent world platforms es (step world platforms Event.frame g)
    (le_of_eq (frame_of_fired world platforms g.input g.player hf)) (by omega)
  omega

/-- No double jump off the ledge of the source's level: three airborne frames
with the space bar pressed before the second and again before the third fire
exactly one jump. -/
theorem no_double_jump_witness :
    landingsIn (worldOf 960 540) (levelPlatforms (worldOf 960 540))
        [Event.frame, Event.keydown " ", Event.frame, Event.keydown " ", Event.frame]
        { input := input0, player := ledgeWalker } = 0 ∧
      jumpsIn (worldOf 960 540) (levelPlatforms (worldOf 960 540))
        [Event.frame, Event.keydown " ", Event.frame, Event.keydown " ", Event.frame]
        { input := input0, player := ledgeWalker } = 1 ∧
      jumpsIn (worldOf 960 540) (levelPlatforms (worldOf 960 540))
        [Event.frame, Event.keydown " ", Event.frame, Event.keydown " ", Event.frame]
        { input := input0, player := ledgeWalker } ≤ 1 :=
  ⟨by decide!, by decide!,
    (no_double_jump (worldOf 960 540) (levelPlatforms (worldOf 960 540))
      [Event.frame, Event.keydown " ", Event.frame, Event.keydown " ", Event.frame]
      { input := input0, player := ledgeWalker }).1 (by decide!)⟩

/-! ## Resting on a platform -/

theorem clamp_zero (m : ℚ) (hm : 0 ≤ m) : clamp 0 (-m) m = 0 := by
  unfold clamp
  rw [min_eq_right hm, max_eq_right (by linarith)]

theorem firstOverlap_of_unique (platforms : List Platform) (player : Player) (p : Platform)
    (hmem : p ∈ platforms) (hp : overlaps player p = true)
    (hothers : ∀ q ∈ platforms, q ≠ p → overlaps player q = false) :
    firstOverlap platforms player = some p := by
  cases hf : firstOverlap platforms player with
  | none =>
    have := (firstOverlap_eq_none_iff platforms player).mp hf p hmem
    rw [hp] at this
    exact absurd this (by simp)
  | some q =>
    have hq : overlaps player q = true := firstOverlap_overlaps _ _ _ hf
    have hqmem : q ∈ platforms := by
      rw [← find?_eq_firstOverlap] at hf
      exact List.mem_of_find?_eq_some hf
    by_cases hqp : q = p
    · rw [hqp]
    · have := hothers q hqmem hqp
      rw [hq] at this
      exact absurd this (by simp)

/-- C20 (as the code has it). Resting is a fixed point: a player standing
exactly on top of a platform `p` of the list (`y = p.y - player.height`, its
x-interval strictly overlapping that of `p`, `vx = 0`, `vy = 0`,
`onGround = true`, `coyoteCounter = coyoteTimeFrames`, `jumpBufferCounter = 0`),
with no directional input, `0 < gravity < p.height + player.height`, no other
platform overlapping the player's rectangle shifted down by gravity, and resting
no lower than the respawn threshold (`y ≤ world.height + 200`), is returned
unchanged by `update` (with `maxSpeedX ≥ 0`, as it is). -/
theorem resting_fixed_point (world : World) (platforms : List Platform) (input : Input)
    (player : Player) (p : Platform) (hmem : p ∈ platforms)
    (hy : player.y = p.y - player.height)
    (hx1 : player.x < p.x + p.width) (hx2 : player.x + player.width > p.x)
    (hvx : player.vx = 0) (hvy : player.vy = 0) (hground : player.onGround = true)
    (hcc : player.coyoteCounter = player.coyoteTimeFrames)
    (hjb : player.jumpBufferCounter = 0) (hin : noDirection input)
    (hg0 : 0 < world.gravity) (hg1 : world.gravity < p.height + player.height)
    (hothers : ∀ q ∈ platforms, q ≠ p →
      rectsOverlap player.x (player.y + world.gravity) player.width player.height
        q.x q.y q.width q.height = false)
    (hm : 0 ≤ player.maxSpeedX) (hworld : player.y ≤ world.height + 200) :
    update world platforms input player = player := by
  have h1 : horizontalIntent input player = player := by
    rw [horizontalIntent_of_no_direction input player hin, hvx, zero_mul, clamp_zero _ hm]
    cases player
    simp only [Player.mk.injEq, true_and, and_true]
    exact hvx.symm
  have h2 : integrateX player = player := by
    unfold integrateX
    cases player
    simp only [Player.mk.injEq, true_and, and_true, add_right_eq_self]
    exact hvx
  have h3 : resolveHorizontalCollisions platforms player = player :=
    resolveHorizontalCollisions_of_vx_zero platforms player hvx
  have hb : beforeVertical world platforms input player
      = { player with vy := world.gravity, y := player.y + world.gravity } := by
    unfold beforeVertical afterHorizontal beforeHorizontal
    rw [h1, h2, h3]
    unfold integrateY
    simp only [hvy, zero_add]
  have hov : overlaps (beforeVertical world platforms input player) p = true := by
    rw [hb]
    unfold overlaps rectsOverlap
    simp only [Bool.and_eq_true, decide_eq_true_eq, gt_iff_lt]
    refine ⟨⟨⟨hx1, hx2⟩, ?_⟩, ?_⟩
    · rw [hy]; linarith
    · rw [hy]; linarith
  have hfirst : firstOverlap platforms (beforeVertical world platforms input player)
      = some p := by
    refine firstOverlap_of_unique platforms _ p hmem hov ?_
    intro q hq hqp
    rw [hb]
    exact hothers q hq hqp
  have hloop : verticalLoop platforms (beforeVertical world platforms input player)
      = ({ player with vy := 0, y := p.y - player.height }, true) := by
    rw [verticalLoop_of_firstOverlap _ _ p hfirst, hb]
    unfold verticalStep
    rw [← hb, hov, hb]
    simp [hg0]
  have hafter : afterVertical world platforms input player = player := by
    unfold afterVertical resolveVerticalCollisions
    rw [hloop]
    unfold settleGround
    simp only [if_true]
    cases player
    simp only [Player.mk.injEq, true_and, and_true]
    exact ⟨hy.symm, hvy.symm, hground.symm, hcc.symm⟩
  have hjump : tryJump player = player := by
    unfold tryJump jumpCondition
    simp [hjb]
  rw [update_eq, hafter, hjump]
  unfold respawn
  rw [if_neg (not_lt.mpr hworld)]

/-- Resting on the ground platform of the source's level. -/
theorem resting_fixed_point_witness :
    update (worldOf 960 540) (levelPlatforms (worldOf 960 540)) input0 groundRester
      = groundRester :=
  resting_fixed_point (worldOf 960 540) (levelPlatforms (worldOf 960 540)) input0
    groundRester { x := 0, y := 540 - 48, width := 960, height := 48 }
    (by decide!) (by decide!) (by decide!) (by decide!) (by decide!) (by decide!)
    (by decide!) (by decide!) (by decide!) rfl (by decide!) (by decide!) (by decide!)
    (by decide!) (by decide!)

/-- C20 fails as stated: the player rests exactly on `deepSlab`, the only
platform, with every listed condition met (`0 < 0.6 < 20 + 48`), but it rests at
`y = 752`, below `world.height + 200 = 740`, so `update` takes the respawn reset
and returns the player at `y = 0`, not the same state. -/
theorem resting_fixed_point_counterexample :
    deepRester.y = deepSlab.y - deepRester.height ∧
      deepRester.x < deepSlab.x + deepSlab.width ∧
      deepRester.x + deepRester.width > deepSlab.x ∧
      deepRester.vx = 0 ∧ deepRester.vy = 0 ∧ deepRester.onGround = true ∧
      deepRester.coyoteCounter = deepRester.coyoteTimeFrames ∧
      deepRester.jumpBufferCounter = 0 ∧
      0 < (worldOf 960 540).gravity ∧
      (worldOf 960 540).gravity < deepSlab.height + deepRester.height ∧
      (update (worldOf 960 540) [deepSlab] input0 deepRester).y = 0 ∧
      update (worldOf 960 540) [deepSlab] input0 deepRester ≠ deepRester := by
  decide!

/-! ## The collision passes under rounding -/

theorem resolveHorizontalCollisionsR_id (platforms : List Platform) (player : Player) :
    resolveHorizontalCollisionsR id platforms player
      = resolveHorizontalCollisions platforms player := rfl

theorem resolveVerticalCollisionsR_id (platforms : List Platform) (player : Player) :
    resolveVerticalCollisionsR id platforms player
      = resolveVerticalCollisions platforms player := rfl

theorem horizontalStepR_of_vx_zero (fl : ℚ → ℚ) (player : Player) (p : Platform)
    (h : player.vx = 0) : horizontalStepR fl player p = player := by
  unfold horizontalStepR
  split
  · simp only [h, gt_iff_lt, lt_self_iff_false, if_false]
    cases player
    simp_all
  · rfl

theorem resolveHorizontalCollisionsR_of_vx_zero (fl : ℚ → ℚ) (platforms : List Platform)
    (player : Player) (h : player.vx = 0) :
    resolveHorizontalCollisionsR fl platforms player = player := by
  induction platforms with
  | nil => rfl
  | cons p rest ih =>
    simp only [resolveHorizontalCollisionsR, List.foldl_cons] at ih ⊢
    rw [horizontalStepR_of_vx_zero fl player p h]
    exact ih

theorem horizontalStepR_snap (fl : ℚ → ℚ) (player : Player) (p : Platform)
    (h : overlapsR fl player p = true) :
    (horizontalStepR fl player p).x
        = (if player.vx > 0 then fl (p.x - player.width)
           else if player.vx < 0 then fl (p.x + p.width) else player.x) ∧
      (horizontalStepR fl player p).vx = 0 ∧ (horizontalStepR fl player p).y = player.y ∧
      (horizontalStepR fl player p).vy = player.vy ∧
      (horizontalStepR fl player p).width = player.width ∧
      (horizontalStepR fl player p).height = player.height := by
  unfold horizontalStepR
  simp only [h, if_true]
  split
  · simp
  · split <;> simp

theorem firstOverlapR_overlaps (fl : ℚ → ℚ) (platforms : List Platform) (player : Player)
    (p : Platform) (h : firstOverlapR fl platforms player = some p) :
    overlapsR fl player p = true := by
  unfold firstOverlapR at h
  have hmem : p ∈ platforms.filter (overlapsR fl player) := List.mem_of_mem_head? h
  exact (List.mem_filter.mp hmem).2

theorem firstOverlapR_eq_none_iff (fl : ℚ → ℚ) (platforms : List Platform)
    (player : Player) :
    firstOverlapR fl platforms player = none ↔
      ∀ p ∈ platforms, overlapsR fl player p = false := by
  unfold firstOverlapR
  rw [List.head?_eq_none_iff, List.filter_eq_nil_iff]
  simp

/-- Under any rounding the horizontal pass is decided by the first platform of
the list that overlaps the player on entry. -/
theorem resolveHorizontalCollisionsR_eq_first (fl : ℚ → ℚ) (platforms : List Platform)
    (player : Player) :
    resolveHorizontalCollisionsR fl platforms player
      = match firstOverlapR fl platforms player with
        | none => player
        | some p => horizontalStepR fl player p := by
  unfold firstOverlapR
  induction platforms with
  | nil => rfl
  | cons p rest ih =>
    show resolveHorizontalCollisionsR fl rest (horizontalStepR fl player p) = _
    cases hp : overlapsR fl player p with
    | true =>
      rw [List.filter_cons_of_pos hp]
      exact resolveHorizontalCollisionsR_of_vx_zero fl rest _
        (horizontalStepR_snap fl player p hp).2.1
    | false =>
      rw [List.filter_cons_of_neg (by simp [hp])]
      have hstep : horizontalStepR fl player p = player := by
        simp [horizontalStepR, hp]
      rw [hstep]
      exact ih

theorem verticalStepR_snap (fl : ℚ → ℚ) (player : Player) (g : Bool) (p : Platform)
    (h : overlapsR fl player p = true) :
    (verticalStepR fl (player, g) p).1.y
        = (if player.vy > 0 then fl (p.y - player.height)
           else if player.vy < 0 then fl (p.y + p.height) else player.y) ∧
      (verticalStepR fl (player, g) p).1.vy = 0 ∧
      (verticalStepR fl (player, g) p).1.x = player.x ∧
      (verticalStepR fl (player, g) p).1.vx = player.vx ∧
      (verticalStepR fl (player, g) p).1.width = player.width ∧
      (verticalStepR fl (player, g) p).1.height = player.height := by
  unfold verticalStepR
  simp only [h, if_true]
  split
  · simp
  · rename_i h1
    split
    · simp
    · rename_i h2
      simp only [and_self, and_true, true_and]
      exact le_antisymm (not_lt.mp h1) (not_lt.mp h2)

theorem verticalFoldR_of_vy_zero (fl : ℚ → ℚ) (platforms : List Platform)
    (s : Player × Bool) (h : s.1.vy = 0) : platforms.foldl (verticalStepR fl) s = s := by
  induction platforms with
  | nil => rfl
  | cons p rest ih =>
    simp only [List.foldl_cons]
    have hstep : verticalStepR fl s p = s := by
      simp [verticalStepR, h]
    rw [hstep]
    exact ih

/-- Under any rounding the loop of the vertical pass is decided by the first
platform of the list that overlaps the player on entry. -/
theorem verticalLoopR_eq_first (fl : ℚ → ℚ) (platforms : List Platform) (player : Player) :
    verticalLoopR fl platforms player
      = match firstOverlapR fl platforms player with
        | none => (player, false)
        | some p => verticalStepR fl (player, false) p := by
  unfold firstOverlapR verticalLoopR
  generalize false = g
  induction platforms with
  | nil => rfl
  | cons p rest ih =>
    rw [List.foldl_cons]
    cases hp : overlapsR fl player p with
    | true =>
      rw [List.filter_cons_of_pos hp]
      exact verticalFoldR_of_vy_zero fl rest _ (verticalStepR_snap fl player g p hp).2.1
    | false =>
      rw [List.filter_cons_of_neg (by simp [hp])]
      have hstep : verticalStepR fl (player, g) p = (player, g) := by
        simp [verticalStepR, hp]
      rw [hstep]
      exact ih

theorem settleGround_overlapsR (fl : ℚ → ℚ) (s : Player × Bool) (p : Platform) :
    overlapsR fl (settleGround s) p = overlapsR fl s.1 p := by
  unfold settleGround
  split
  · rfl
  · simp only
    split <;> rfl

/-- A snap to the left or upward edge is re-tested against the very sum it was
computed from, so it clears the platform under any rounding. -/
theorem horizontalStepR_clear_of_neg (fl : ℚ → ℚ) (player : Player) (p : Platform)
    (h : overlapsR fl player p = true) (hv : player.vx < 0) :
    overlapsR fl (horizontalStepR fl player p) p = false := by
  obtain ⟨hx, -, -, -, -, -⟩ := horizontalStepR_snap fl player p h
  rw [if_neg (not_lt.mpr (le_of_lt hv)), if_pos hv] at hx
  unfold overlapsR rectsOverlapR
  rw [hx]
  simp

theorem horizontalStepR_clear_of_pos (fl : ℚ → ℚ) (player : Player) (p : Platform)
    (h : overlapsR fl player p = true) (hv : player.vx > 0)
    (hsub : fl (p.x - player.width) = p.x - player.width) (hrep : fl p.x = p.x) :
    overlapsR fl (horizontalStepR fl player p) p = false := by
  obtain ⟨hx, -, -, -, hw, -⟩ := horizontalStepR_snap fl player p h
  rw [if_pos hv, hsub] at hx
  unfold overlapsR rectsOverlapR
  rw [hx, hw, sub_add_cancel, hrep]
  simp

theorem verticalStepR_clear_of_neg (fl : ℚ → ℚ) (player : Player) (g : Bool) (p : Platform)
    (h : overlapsR fl player p = true) (hv : player.vy < 0) :
    overlapsR fl (verticalStepR fl (player, g) p).1 p = false := by
  obtain ⟨hy, -, -, -, -, -⟩ := verticalStepR_snap fl player g p h
  rw [if_neg (not_lt.mpr (le_of_lt hv)), if_pos hv] at hy
  unfold overlapsR rectsOverlapR
  rw [hy]
  simp

theorem verticalStepR_clear_of_pos (fl : ℚ → ℚ) (player : Player) (g : Bool) (p : Platform)
    (h : overlapsR fl player p = true) (hv : player.vy > 0)
    (hsub : fl (p.y - player.height) = p.y - player.height) (hrep : fl p.y = p.y) :
    overlapsR fl (verticalStepR fl (player, g) p).1 p = false := by
  obtain ⟨hy, -, -, -, -, hh⟩ := verticalStepR_snap fl player g p h
  rw [if_pos hv, hsub] at hy
  unfold overlapsR rectsOverlapR
  rw [hy, hh, sub_add_cancel, hrep]
  simp

theorem resolveHorizontalCollisionsR_of_first (fl : ℚ → ℚ) (platforms : List Platform)
    (player : Player) (p : Platform) (h : firstOverlapR fl platforms player = some p) :
    resolveHorizontalCollisionsR fl platforms player = horizontalStepR fl player p := by
  rw [resolveHorizontalCollisionsR_eq_first, h]

theorem resolveHorizontalCollisionsR_of_none (fl : ℚ → ℚ) (platforms : List Platform)
    (player : Player) (h : firstOverlapR fl platforms player = none) :
    resolveHorizontalCollisionsR fl platforms player = player := by
  rw [resolveHorizontalCollisionsR_eq_first, h]

theorem verticalLoopR_of_first (fl : ℚ → ℚ) (platforms : List Platform)
    (player : Player) (p : Platform) (h : firstOverlapR fl platforms player = some p) :
    verticalLoopR fl platforms player = verticalStepR fl (player, false) p := by
  rw [verticalLoopR_eq_first, h]

theorem verticalLoopR_of_none (fl : ℚ → ℚ) (platforms : List Platform)
    (player : Player) (h : firstOverlapR fl platforms player = none) :
    verticalLoopR fl platforms player = (player, false) := by
  rw [verticalLoopR_eq_first, h]

/-- C2 (as the code has it). What each collision pass guarantees about overlap,
under any rounding `fl` of the arithmetic (exact, or that of JavaScript numbers),
for the state entering the pass (in `update`, the state after line 139, resp.
after line 144).  If no platform overlaps the player on entering the pass, none
overlaps after it.  If `p` is the first platform of the list that overlaps and
the velocity on the pass's axis is negative, the player does not overlap `p`
after the pass.  If that velocity is positive, the player does not overlap `p`
after the pass provided the snap subtraction (`p.x - player.width`, resp.
`p.y - player.height`) is exact, as it is for integer coordinates.  Nothing is
guaranteed about an overlap met with zero velocity, about the other platforms, or
about an inexact snap. -/
theorem collision_pass_postcondition (fl : ℚ → ℚ) (platforms : List Platform)
    (player : Player) :
    (firstOverlapR fl platforms player = none →
        ∀ p ∈ platforms,
          overlapsR fl (resolveHorizontalCollisionsR fl platforms player) p = false) ∧
      (∀ p : Platform, firstOverlapR fl platforms player = some p → player.vx < 0 →
        overlapsR fl (resolveHorizontalCollisionsR fl platforms player) p = false) ∧
      (∀ p : Platform, firstOverlapR fl platforms player = some p → player.vx > 0 →
        fl (p.x - player.width) = p.x - player.width → fl p.x = p.x →
        overlapsR fl (resolveHorizontalCollisionsR fl platforms player) p = false) ∧
      (firstOverlapR fl platforms player = none →
        ∀ p ∈ platforms,
          overlapsR fl (resolveVerticalCollisionsR fl platforms player) p = false) ∧
      (∀ p : Platform, firstOverlapR fl platforms player = some p → player.vy < 0 →
        overlapsR fl (resolveVerticalCollisionsR fl platforms player) p = false) ∧
      (∀ p : Platform, firstOverlapR fl platforms player = some p → player.vy > 0 →
        fl (p.y - player.height) = p.y - player.height → fl p.y = p.y →
        overlapsR fl (resolveVerticalCollisionsR fl platforms player) p = false) := by
  refine ⟨?_, ?_, ?_, ?_, ?_, ?_⟩
  · intro hnone p hmem
    rw [resolveHorizontalCollisionsR_of_none fl platforms player hnone]
    exact (firstOverlapR_eq_none_iff fl platforms player).mp hnone p hmem
  · intro p hp hv
    rw [resolveHorizontalCollisionsR_of_first fl platforms player p hp]
    exact horizontalStepR_clear_of_neg fl player p (firstOverlapR_overlaps fl _ _ _ hp) hv
  · intro p hp hv hsub hrep
    rw [resolveHorizontalCollisionsR_of_first fl platforms player p hp]
    exact horizontalStepR_clear_of_pos fl player p (firstOverlapR_overlaps fl _ _ _ hp) hv
      hsub hrep
  · intro hnone p hmem
    unfold resolveVerticalCollisionsR
    rw [settleGround_overlapsR, verticalLoopR_of_none fl platforms player hnone]
    exact (firstOverlapR_eq_none_iff fl platforms player).mp hnone p hmem
  · intro p hp hv
    unfold resolveVerticalCollisionsR
    rw [settleGround_overlapsR, verticalLoopR_of_first fl platforms player p hp]
    exact verticalStepR_clear_of_neg fl player false p
      (firstOverlapR_overlaps fl _ _ _ hp) hv
  · intro p hp hv hsub hrep
    unfold resolveVerticalCollisionsR
    rw [settleGround_overlapsR, verticalLoopR_of_first fl platforms player p hp]
    exact verticalStepR_clear_of_pos fl player false p
      (firstOverlapR_overlaps fl _ _ _ hp) hv hsub hrep

/-- In JavaScript arithmetic the falling player over the two slabs lands on
`lowerSlab` (`100 - 48 = 52` is exact) and ends clear of it. -/
theorem collision_pass_postcondition_witness :
    firstOverlapR roundDouble [lowerSlab, upperSlab] faller = some lowerSlab ∧
      faller.vy > 0 ∧
      roundDouble (lowerSlab.y - faller.height) = lowerSlab.y - faller.height ∧
      roundDouble lowerSlab.y = lowerSlab.y ∧
      overlapsR roundDouble
        (resolveVerticalCollisionsR roundDouble [lowerSlab, upperSlab] faller)
        lowerSlab = false :=
  ⟨by decide!, by decide!, by decide!, by decide!,
    (collision_pass_postcondition roundDouble [lowerSlab, upperSlab] faller).2.2.2.2.2
      lowerSlab (by decide!) (by decide!) (by decide!) (by decide!)⟩

/-- C17 (as the code has it). Against a level of exactly one platform `p`, under
any rounding `fl` of the arithmetic.  If the player overlaps `p` and `vx ≠ 0`,
`resolveHorizontalCollisions` leaves `vx = 0`, `x` the computed
`p.x - player.width` when `vx > 0` and the computed `p.x + p.width` when `vx < 0`,
and `y` unchanged; the player is then clear of `p` when `vx < 0`, and when
`vx > 0` provided the subtraction `p.x - player.width` is exact.  If the player
overlaps `p` and `vy ≠ 0`, `resolveVerticalCollisions` leaves `vy = 0`, `y` the
computed `p.y - player.height` when `vy > 0` and the computed `p.y + p.height`
when `vy < 0`, and `x` unchanged; the player is then clear of `p` when `vy < 0`,
and when `vy > 0` provided the subtraction `p.y - player.height` is exact.  If the
player does not overlap `p`, neither pass changes position or velocity. -/
theorem single_contact_snap (fl : ℚ → ℚ) (player : Player) (p : Platform) :
    (overlapsR fl player p = true → player.vx ≠ 0 →
        (resolveHorizontalCollisionsR fl [p] player).vx = 0 ∧
          (player.vx > 0 →
            (resolveHorizontalCollisionsR fl [p] player).x = fl (p.x - player.width)) ∧
          (player.vx < 0 →
            (resolveHorizontalCollisionsR fl [p] player).x = fl (p.x + p.width)) ∧
          (resolveHorizontalCollisionsR fl [p] player).y = player.y ∧
          (player.vx < 0 →
            overlapsR fl (resolveHorizontalCollisionsR fl [p] player) p = false) ∧
          (player.vx > 0 → fl (p.x - player.width) = p.x - player.width → fl p.x = p.x →
            overlapsR fl (resolveHorizontalCollisionsR fl [p] player) p = false)) ∧
      (overlapsR fl player p = true → player.vy ≠ 0 →
        (resolveVerticalCollisionsR fl [p] player).vy = 0 ∧
          (player.vy > 0 →
            (resolveVerticalCollisionsR fl [p] player).y = fl (p.y - player.height)) ∧
          (player.vy < 0 →
            (resolveVerticalCollisionsR fl [p] player).y = fl (p.y + p.height)) ∧
          (resolveVerticalCollisionsR fl [p] player).x = player.x ∧
          (player.vy < 0 →
            overlapsR fl (resolveVerticalCollisionsR fl [p] player) p = false) ∧
          (player.vy > 0 → fl (p.y - player.height) = p.y - player.height → fl p.y = p.y →
            overlapsR fl (resolveVerticalCollisionsR fl [p] player) p = false)) ∧
      (overlapsR fl player p = false →
        resolveHorizontalCollisionsR fl [p] player = player ∧
          (resolveVerticalCollisionsR fl [p] player).x = player.x ∧
          (resolveVerticalCollisionsR fl [p] player).y = player.y ∧
          (resolveVerticalCollisionsR fl [p] player).vx = player.vx ∧
          (resolveVerticalCollisionsR fl [p] player).vy = player.vy) := by
  have hH : resolveHorizontalCollisionsR fl [p] player = horizontalStepR fl player p := rfl
  have hV : verticalLoopR fl [p] player = verticalStepR fl (player, false) p := rfl
  obtain ⟨k1, k2, k3, k4, -⟩ := settleGround_kinematics (verticalLoopR fl [p] player)
  refine ⟨?_, ?_, ?_⟩
  · intro ho hv
    rw [hH]
    obtain ⟨hx, hvx, hy, -⟩ := horizontalStepR_snap fl player p ho
    refine ⟨hvx, ?_, ?_, hy, ?_, ?_⟩
    · intro hpos
      rw [hx, if_pos hpos]
    · intro hneg
      rw [hx, if_neg (not_lt.mpr (le_of_lt hneg)), if_pos hneg]
    · exact horizontalStepR_clear_of_neg fl player p ho
    · exact horizontalStepR_clear_of_pos fl player p ho
  · intro ho hv
    obtain ⟨hy, hvy, hx, -⟩ := verticalStepR_snap fl player false p ho
    unfold resolveVerticalCollisionsR
    rw [settleGround_overlapsR, k1, k2, k4, hV]
    refine ⟨hvy, ?_, ?_, hx, ?_, ?_⟩
    · intro hpos
      rw [hy, if_pos hpos]
    · intro hneg
      rw [hy, if_neg (not_lt.mpr (le_of_lt hneg)), if_pos hneg]
    · exact verticalStepR_clear_of_neg fl player false p ho
    · exact verticalStepR_clear_of_pos fl player false p ho
  · intro ho
    have hstepH : horizontalStepR fl player p = player := by
      simp [horizontalStepR, ho]
    have hstepV : verticalStepR fl (player, false) p = (player, false) := by
      simp [verticalStepR, ho]
    unfold resolveVerticalCollisionsR
    rw [k1, k2, k3, k4, hV, hH, hstepH, hstepV]
    exact ⟨rfl, rfl, rfl, rfl, rfl⟩

/-- Single contact at a wall in JavaScript arithmetic: the player moving right
into `nearWall` is put at `x = 110 - 32 = 78`, an exact subtraction, and is clear
of the wall. -/
theorem single_contact_snap_witness :
    overlapsR roundDouble runner nearWall = true ∧ runner.vx ≠ 0 ∧ runner.vx > 0 ∧
      roundDouble (nearWall.x - runner.width) = nearWall.x - runner.width ∧
      roundDouble nearWall.x = nearWall.x ∧
      (resolveHorizontalCollisionsR roundDouble [nearWall] runner).x = 78 ∧
      overlapsR roundDouble (resolveHorizontalCollisionsR roundDouble [nearWall] runner)
        nearWall = false :=
  ⟨by decide!, by decide!, by decide!, by decide!, by decide!,
    (((single_contact_snap roundDouble runner nearWall).1 (by decide!) (by decide!)).2.1
      (by decide!)).trans (by decide!),
    ((single_contact_snap roundDouble runner nearWall).1 (by decide!)
      (by decide!)).2.2.2.2.2 (by decide!) (by decide!) (by decide!)⟩

/-- C17 fails as stated, in the arithmetic of JavaScript numbers: the slab has
positive width and height and its top is at the number `0.1`; the falling player
overlaps it with `vy = 1`; line 78 puts the player at the number nearest
`0.1 - 48`, and line 56 then computes that `y` plus `48` as
`0.10000000000000142`, which is greater than `0.1`: after
`resolveVerticalCollisions` the player still overlaps the slab. -/
theorem single_contact_rounding_counterexample :
    0 < fracSlab.width ∧ 0 < fracSlab.height ∧
      fracSlab.y = 3602879701896397 / 36028797018963968 ∧
      overlapsR roundDouble fracFaller fracSlab = true ∧ fracFaller.vy > 0 ∧
      (resolveVerticalCollisionsR roundDouble [fracSlab] fracFaller).vy = 0 ∧
      (resolveVerticalCollisionsR roundDouble [fracSlab] fracFaller).y
        = roundDouble (fracSlab.y - fracFaller.height) ∧
      roundDouble ((resolveVerticalCollisionsR roundDouble [fracSlab] fracFaller).y
          + fracFaller.height) = 14073748835533 / 140737488355328 ∧
      roundDouble ((resolveVerticalCollisionsR roundDouble [fracSlab] fracFaller).y
          + fracFaller.height) > fracSlab.y ∧
      overlapsR roundDouble (resolveVerticalCollisionsR roundDouble [fracSlab] fracFaller)
        fracSlab = true := by
  decide!

end Platformer
